import Mathlib

/-!
Shallow embedding of the unimail streaming / pagination / incremental-sync
engine, and proofs of the specification's claims about it.

The embedding covers:
* `EmailStreamService.createEmailStream`, `processEmailStream`,
  `validateStreamOptions` (streaming engine);
* `PaginationHelper` (`goToNextPage`, `goToPreviousPage`, `goToFirstPage`,
  `fetchCurrentPage`, `fetchAllPages`) (pagination controller);
* `GmailAdapter.getHistory`, `getEmailById` (as an injected hydrator) and
  `processSync` (change-feed reconciliation and sync orchestration).

JavaScript truthiness tests (`if (x)`, `x || y`, `!!x`) on optional strings
and numbers are modelled explicitly: `undefined`, `""` and `0` are falsy.
Injected asynchronous collaborators (page fetchers, the entity hydrator,
callbacks) are modelled as pure functions returning `Except`; thrown
JavaScript `Error` values are modelled by their message strings, which is
faithful to the source: every throw site constructs a plain `new Error(msg)`.
-/

set_option maxHeartbeats 1000000

namespace Unimail

/-- JS truthiness of an optional string: `undefined` and `""` are falsy. -/
def truthyStr : Option String → Bool
  | none => false
  | some s => decide (s ≠ "")

/-- JS truthiness of an optional number: `undefined` and `0` are falsy. -/
def truthyInt : Option Int → Bool
  | none => false
  | some n => decide (n ≠ 0)

/-! ### Stream engine: `EmailStreamService` -/

/-- `EmailStreamOptions` (interfaces): `batchSize?`, `maxEmails?`, plus the
optional starting `pageToken` read by `createEmailStream`. -/
structure EmailStreamOptions where
  batchSize : Option Int := none
  maxEmails : Option Int := none
  pageToken : Option String := none

/-- `EmailStreamSummary` without the wall-clock fields (`startTime`,
`endTime`, `duration`), which are real-time data outside the embedding. -/
structure EmailStreamSummary where
  totalProcessed : Nat
  totalBatches : Nat
  errors : Nat
deriving DecidableEq

/-- `EmailStreamProgress` as computed by `processEmailStream` (the `total`
and `estimatedRemaining` fields are never set at that level). -/
structure EmailStreamProgress where
  current : Nat
  batchCount : Nat
deriving DecidableEq

/-- The optional callbacks of `EmailStreamCallbacks`; each may throw (model:
`Except ε`). `onComplete` is represented by the returned summary. -/
structure EmailStreamCallbacks (α ε : Type) where
  onBatch : Option (List α → EmailStreamProgress → Except ε Unit) := none
  onProgress : Option (EmailStreamProgress → Except ε Unit) := none
  onError : Option (ε → EmailStreamProgress → Except ε Unit) := none

/-- The inner `try` block of the loop body of `processEmailStream`: run
`onBatch`, then `onProgress`; the first throw escapes to the `catch`. -/
def runCallbacks (cbs : EmailStreamCallbacks α ε) (batch : List α)
    (progress : EmailStreamProgress) : Except ε Unit :=
  match (match cbs.onBatch with
         | some f => f batch progress
         | none => Except.ok ()) with
  | Except.error e => Except.error e
  | Except.ok _ =>
    match cbs.onProgress with
    | some f => f progress
    | none => Except.ok ()

/-- Result of one run of `processEmailStream`: the summary handed to
`onComplete` in the `finally` block, the list of batches whose callbacks
completed without throwing (instrumentation recording which batches were
delivered to the caller without failure), and the error propagated out of
the loop, if any. -/
structure StreamRunResult (α ε : Type) where
  summary : EmailStreamSummary
  delivered : List (List α)
  thrown : Option ε
deriving DecidableEq

/-- The `for await` loop of `processEmailStream`, one step per batch yielded
by the generator.  Note the order in the source: `totalBatches` and
`totalProcessed` are updated *before* the callbacks run, so a batch whose
`onBatch` throws has already been counted.  On a callback throw,
`summary.errors` increments, then: with no `onError` registered the error
re-raises (loop stops); with `onError` registered the error is passed to it
and, unless `onError` itself throws, the loop proceeds. -/
def processGo (cbs : EmailStreamCallbacks α ε) :
    List (List α) → Nat → EmailStreamSummary → List (List α) →
    StreamRunResult α ε
  | [], _, s, delivered => ⟨s, delivered, none⟩
  | batch :: rest, batchNumber, s, delivered =>
    let n := batchNumber + 1
    let s₁ : EmailStreamSummary :=
      { s with totalBatches := n, totalProcessed := s.totalProcessed + batch.length }
    let progress : EmailStreamProgress := ⟨s₁.totalProcessed, n⟩
    match runCallbacks cbs batch progress with
    | Except.ok _ => processGo cbs rest n s₁ (delivered ++ [batch])
    | Except.error e =>
      let s₂ : EmailStreamSummary := { s₁ with errors := s₁.errors + 1 }
      match cbs.onError with
      | some h =>
        match h e progress with
        | Except.ok _ => processGo cbs rest n s₂ delivered
        | Except.error e₂ => ⟨s₂, delivered, some e₂⟩
      | none => ⟨s₂, delivered, some e⟩

/-- `processEmailStream`, applied to the batches the generator yields and an
optional error the generator raises after its last yielded batch (a
generator failure surfaces at the `for await` once all earlier batches were
consumed).  The summary is returned as handed to `onComplete`. -/
def processEmailStream (cbs : EmailStreamCallbacks α ε)
    (batches : List (List α)) (genError : Option ε) : StreamRunResult α ε :=
  let r := processGo cbs batches 0 ⟨0, 0, 0⟩ []
  match r.thrown with
  | some _ => r
  | none => { r with thrown := genError }

/-- One page returned by the injected `fetchPageFn`. -/
structure FetchPageResponse (α : Type) where
  emails : List α
  nextPageToken : Option String := none
  totalCount : Option Int := none

/-- `options.batchSize || 50`: JS `||` falls through on `undefined` and `0`. -/
def effectiveBatchSize (options : EmailStreamOptions) : Int :=
  if truthyInt options.batchSize then options.batchSize.getD 0 else 50

/-- The page loop of `createEmailStream`: clamp the request size to the
`maxEmails` budget, stop on an empty page, a falsy `nextPageToken`, or once
`maxEmails` is reached.  `fuel` bounds the number of iterations (the source
loop may diverge on an adversarial fetch function; all theorems supply
sufficient fuel). -/
def createEmailStreamGo (fetchPageFn : Option String → Int → FetchPageResponse α)
    (batchSize : Int) (maxEmails : Option Int) :
    Option String → Int → Nat → List (List α)
  | _, _, 0 => []
  | pageToken, totalProcessed, fuel + 1 =>
    let requestSize :=
      if truthyInt maxEmails && decide (totalProcessed + batchSize > maxEmails.getD 0)
      then maxEmails.getD 0 - totalProcessed
      else batchSize
    if requestSize ≤ 0 then []
    else
      let response := fetchPageFn pageToken requestSize
      if response.emails.length = 0 then []
      else
        response.emails ::
          (let totalProcessed' := totalProcessed + (response.emails.length : Int)
           if truthyInt maxEmails && decide (totalProcessed' ≥ maxEmails.getD 0) then []
           else if truthyStr response.nextPageToken then
             createEmailStreamGo fetchPageFn batchSize maxEmails
               response.nextPageToken totalProcessed' fuel
           else [])

/-- `createEmailStream`: the batches yielded by the generator. -/
def createEmailStream (fetchPageFn : Option String → Int → FetchPageResponse α)
    (options : EmailStreamOptions) (fuel : Nat) : List (List α) :=
  createEmailStreamGo fetchPageFn (effectiveBatchSize options) options.maxEmails
    options.pageToken 0 fuel

/-- `validateStreamOptions`: note that the guards test JS truthiness first,
so `batchSize: 0` (falsy) skips the `batchSize <= 0` check entirely. -/
def validateStreamOptions (options : EmailStreamOptions) : Except String Unit :=
  if truthyInt options.batchSize && decide (options.batchSize.getD 0 ≤ 0) then
    Except.error "batchSize must be greater than 0"
  else if truthyInt options.maxEmails && decide (options.maxEmails.getD 0 ≤ 0) then
    Except.error "maxEmails must be greater than 0"
  else Except.ok ()

/-- `GmailAdapter.streamEmails` ordering: options are validated before the
stream is created, so a validation failure precedes any fetch. -/
def streamEmails (fetchPageFn : Option String → Int → FetchPageResponse α)
    (options : EmailStreamOptions) (fuel : Nat) :
    Except String (List (List α)) :=
  match validateStreamOptions options with
  | Except.error e => Except.error e
  | Except.ok _ => Except.ok (createEmailStream fetchPageFn options fuel)

/-! ### Pagination controller: `PaginationHelper`

The injected adapter's `fetchEmails` is modelled as a pure function from the
page token and page size to a page (`FetchPageResponse`); the fixed filter
options (`query` etc.) are closed over by that function, so they are not
carried in the state record.  JS array `push`/`pop` on `previousPageTokens`
are modelled as append / `getLast?`+`dropLast` at the end of a `List`. -/

/-- `PaginationMetadata` as built by `createPaginationMetadata`. -/
structure PaginationMetadata where
  currentPage : Int
  pageSize : Int
  totalCount : Option Int := none
  estimatedTotalPages : Option Int := none
  nextPageToken : Option String := none
  previousPageToken : Option String := none
  hasNextPage : Bool
  hasPreviousPage : Bool
  isFirstPage : Bool
  isLastPage : Bool
deriving DecidableEq

/-- `PaginationState` (the `query`/`options` fields live in the injected
fetch function). The constructor defaults are the initial state built by
`new PaginationHelper(adapter, {})`. -/
structure PaginationState where
  currentPageToken : Option String := none
  previousPageTokens : List String := []
  currentPage : Int := 1
  pageSize : Int := 20
  totalFetched : Int := 0
deriving DecidableEq

/-- `PaginatedResponse` without the wall-clock `fetchTime` field. -/
structure PaginatedResponse (α : Type) where
  data : List α
  pagination : PaginationMetadata
  totalFetched : Int
deriving DecidableEq

/-- `createPaginationMetadata`.  `estimatedTotalPages` models
`Math.ceil(totalCount / pageSize)` for positive operands (the only ones the
provider produces). -/
def createPaginationMetadata (s : PaginationState) (response : FetchPageResponse α) :
    PaginationMetadata :=
  let hasNextPage := truthyStr response.nextPageToken
  { currentPage := s.currentPage
    pageSize := s.pageSize
    totalCount := response.totalCount
    estimatedTotalPages :=
      if truthyInt response.totalCount && truthyInt (some s.pageSize) then
        some ((response.totalCount.getD 0 + s.pageSize - 1) / s.pageSize)
      else none
    nextPageToken := response.nextPageToken
    previousPageToken := s.previousPageTokens.getLast?
    hasNextPage := hasNextPage
    hasPreviousPage := decide (s.previousPageTokens.length > 0)
    isFirstPage := decide (s.currentPage = 1)
    isLastPage := !hasNextPage }

/-- `fetchCurrentPage`: re-fetch at the current token; no state mutation. -/
def fetchCurrentPage (fetch : Option String → Int → FetchPageResponse α)
    (s : PaginationState) : PaginatedResponse α :=
  let response := fetch s.currentPageToken s.pageSize
  { data := response.emails
    pagination := createPaginationMetadata s response
    totalFetched := response.emails.length }

/-- The outcome of a navigation call: either a response together with the
updated state, or a thrown navigation error together with the state as the
method left it (mutations made before the `throw` persist). -/
inductive NavResult (α : Type) where
  | ok (state : PaginationState) (response : PaginatedResponse α)
  | err (state : PaginationState) (msg : String)
deriving DecidableEq

/-- Whether a navigation call succeeded. -/
def NavResult.isOk : NavResult α → Bool
  | ok _ _ => true
  | err _ _ => false

/-- The pagination state after a navigation call (on failure: the state the
method left behind when it threw). -/
def NavResult.state : NavResult α → PaginationState
  | ok s _ => s
  | err s _ => s

/-- `goToNextPage`: push the current (truthy) token onto the history, fetch
at the current token, throw if that page reports no (truthy)
`nextPageToken` — note the push has already happened — else advance and
return `fetchCurrentPage` at the new token. -/
def goToNextPage (fetch : Option String → Int → FetchPageResponse α)
    (s : PaginationState) : NavResult α :=
  let s₁ := if truthyStr s.currentPageToken then
      { s with previousPageTokens := s.previousPageTokens ++ [s.currentPageToken.getD ""] }
    else s
  let currentResponse := fetch s.currentPageToken s.pageSize
  if truthyStr currentResponse.nextPageToken then
    let s₂ := { s₁ with
      currentPageToken := currentResponse.nextPageToken
      currentPage := s₁.currentPage + 1
      totalFetched := s₁.totalFetched + currentResponse.emails.length }
    NavResult.ok s₂ (fetchCurrentPage fetch s₂)
  else NavResult.err s₁ "No next page available"

/-- `goToPreviousPage`: throw on empty history, else pop the most recent
token into `currentPageToken`, decrement the page and re-fetch. -/
def goToPreviousPage (fetch : Option String → Int → FetchPageResponse α)
    (s : PaginationState) : NavResult α :=
  if s.previousPageTokens.length = 0 then
    NavResult.err s "No previous page available"
  else
    let s₂ := { s with
      currentPageToken := s.previousPageTokens.getLast?
      previousPageTokens := s.previousPageTokens.dropLast
      currentPage := s.currentPage - 1 }
    NavResult.ok s₂ (fetchCurrentPage fetch s₂)

/-- `goToFirstPage`: clear token/history, reset page and `totalFetched`,
then fetch. -/
def goToFirstPage (fetch : Option String → Int → FetchPageResponse α)
    (s : PaginationState) : PaginationState × PaginatedResponse α :=
  let s₂ := { s with
    currentPageToken := none
    previousPageTokens := []
    currentPage := 1
    totalFetched := 0 }
  (s₂, fetchCurrentPage fetch s₂)

/-- JS truthiness of the optional `maxEmails` argument of `fetchAllPages`
(modelled as a count; a negative JS `maxEmails`, whose `slice` semantics
differ, is outside the modelled range). -/
def truthyNat : Option Nat → Bool
  | none => false
  | some n => decide (n ≠ 0)

/-- The `do … while` loop of `fetchAllPages`: fetch the current page,
append it, stop once `maxEmails` is reached or the page reports no next
page, else advance via `goToNextPage`.  `fuel` bounds the iterations;
`none` means fuel ran out (or the unreachable inner navigation throw for a
deterministic fetch). -/
def fetchAllLoop (fetch : Option String → Int → FetchPageResponse α)
    (maxEmails : Option Nat) :
    Nat → PaginationState → List α → Nat → Option (List α × Nat × PaginationState)
  | 0, _, _, _ => none
  | fuel + 1, s, allEmails, totalPages =>
    let response := fetchCurrentPage fetch s
    let allEmails' := allEmails ++ response.data
    let totalPages' := totalPages + 1
    if truthyNat maxEmails && decide (allEmails'.length ≥ maxEmails.getD 0) then
      some (allEmails', totalPages', s)
    else if response.pagination.hasNextPage then
      match goToNextPage fetch s with
      | NavResult.ok s' _ => fetchAllLoop fetch maxEmails fuel s' allEmails' totalPages'
      | NavResult.err _ _ => none
    else some (allEmails', totalPages', s)

/-- `fetchAllPages`: reset to the first page, run the loop, trim the
aggregate to `maxEmails`, and report pagination metadata that always claims
no further pages (the source's deliberate simplification). -/
def fetchAllPages (fetch : Option String → Int → FetchPageResponse α)
    (maxEmails : Option Nat) (fuel : Nat) (s : PaginationState) :
    Option (PaginatedResponse α × PaginationState) :=
  let s₀ := (goToFirstPage fetch s).1
  match fetchAllLoop fetch maxEmails fuel s₀ [] 0 with
  | none => none
  | some (allEmails, totalPages, sEnd) =>
    let finalEmails := if truthyNat maxEmails then allEmails.take (maxEmails.getD 0) else allEmails
    some ({ data := finalEmails
            pagination := { currentPage := (totalPages : Int)
                            pageSize := sEnd.pageSize
                            totalCount := none
                            estimatedTotalPages := some (totalPages : Int)
                            hasNextPage := false
                            hasPreviousPage := false
                            isFirstPage := true
                            isLastPage := true }
            totalFetched := finalEmails.length }, sEnd)

/-- The opaque cursor naming page `i` of a frozen feed: a non-empty string
whose length encodes the page index (index 0 is addressed by the absent
token). -/
def pageTokenFor (i : Nat) : String := String.mk (List.replicate i '1')

/-- The token state addressing page `i`: page 0 is addressed by `none` (the
initial / reset state), later pages by their cursor. -/
def tokenAt (i : Nat) : Option String :=
  if i = 0 then none else some (pageTokenFor i)

/-- A deterministic provider over a frozen result set split into `pages`
(spec §6: deterministic `fetchPage`, end of results signalled by a null
`nextCursor`), serving page `i` for the cursor `pageTokenFor i`. -/
def pageFeed (pages : List (List α)) : Option String → Int → FetchPageResponse α :=
  fun tok _ =>
    let i := match tok with
      | none => 0
      | some t => t.length
    { emails := pages.getD i []
      nextPageToken := if i + 1 < pages.length then some (pageTokenFor (i + 1)) else none
      totalCount := none }

/-! ### Sync orchestration: `GmailAdapter.getHistory` / `processSync`

The provider's `users.history.list` call is modelled by its outcome (an
injected `Except`), the hydrator `getEmailById` by a pure function
`String → Except String (Option α)` (`null` = message gone or 404, error =
the wrapped provider failure it rethrows).  All thrown `Error`s are plain
message strings, as in the source. -/

/-- One Gmail `HistoryRecord`, keeping only the message ids that
`processSync` reads.  Each section is optional because the JS guards
(`if (record.messagesAdded)` …) test presence, not emptiness. -/
structure HistoryRecord where
  messagesAdded : Option (List String) := none
  messagesDeleted : Option (List String) := none
  labelsAdded : Option (List String) := none
  labelsRemoved : Option (List String) := none
deriving DecidableEq

/-- The raw `users.history.list` response data read by `getHistory`. -/
structure RawHistoryResponse where
  history : List HistoryRecord
  nextPageToken : Option String := none
  historyId : String
deriving DecidableEq

/-- `getHistory`'s normalized return value. -/
structure HistoryResponse where
  history : List HistoryRecord
  nextPageToken : Option String := none
  historyId : String
deriving DecidableEq

/-- The fields of a provider error that `getHistory`'s catch block
inspects. -/
structure ApiError where
  code : Option Nat := none
  message : String := ""
deriving DecidableEq

/-- Substring occurrence on char lists (JS `String.prototype.includes`). -/
def containsSub (needle : List Char) : List Char → Bool
  | [] => needle.isEmpty
  | c :: rest => needle.isPrefixOf (c :: rest) || containsSub needle rest

/-- JS `haystack.includes(needle)`. -/
def stringIncludes (haystack needle : String) : Bool :=
  containsSub needle.data haystack.data

/-- `getHistory` (given the outcome of the provider call): on success it
normalizes `nextPageToken || undefined`; on failure, a `404` code or a
message mentioning `historyId` maps to the distinctive too-old message,
anything else to the generic `Failed to get history` wrapper.  Both are
plain `Error`s (message strings) — there is no separate error class. -/
def getHistory (historyList : Except ApiError RawHistoryResponse)
    (startHistoryId : String) : Except String HistoryResponse :=
  match historyList with
  | Except.ok r =>
    Except.ok
      { history := r.history
        nextPageToken := if truthyStr r.nextPageToken then r.nextPageToken else none
        historyId := r.historyId }
  | Except.error e =>
    if e.code == some 404 || stringIncludes e.message "historyId" then
      Except.error ("History ID " ++ startHistoryId ++
        " is too old or invalid. Use getCurrentHistoryId() to get a fresh starting point.")
    else
      Except.error ("Failed to get history: " ++ e.message)

/-- Reconciliation state of the `processSync` loop.  `addedIds` and
`updatedIds` record the id pushed alongside each hydrated email
(instrumentation: in the source each push into `addedEmails` /
`updatedEmails` is paired with `processedIds.add(id)` on the same id). -/
structure ReconState (α : Type) where
  addedEmails : List α := []
  addedIds : List String := []
  deletedEmailIds : List String := []
  updatedEmails : List α := []
  updatedIds : List String := []
  processedIds : List String := []
deriving DecidableEq

/-- The `messagesAdded` inner loop: skip already-processed ids; hydrate via
`getEmailById`; a `null` result silently skips the id (and does NOT mark it
processed); a hydrator error propagates immediately. -/
def processAdded (getEmailById : String → Except String (Option α)) :
    List String → ReconState α → Except String (ReconState α)
  | [], st => Except.ok st
  | id :: rest, st =>
    if id ∈ st.processedIds then processAdded getEmailById rest st
    else
      match getEmailById id with
      | Except.error e => Except.error e
      | Except.ok none => processAdded getEmailById rest st
      | Except.ok (some email) =>
        processAdded getEmailById rest
          { st with
            addedEmails := st.addedEmails ++ [email]
            addedIds := st.addedIds ++ [id]
            processedIds := st.processedIds ++ [id] }

/-- The `messagesDeleted` inner loop: no hydration; every unseen id is
classified and marked. -/
def processDeleted : List String → ReconState α → ReconState α
  | [], st => st
  | id :: rest, st =>
    if id ∈ st.processedIds then processDeleted rest st
    else
      processDeleted rest
        { st with
          deletedEmailIds := st.deletedEmailIds ++ [id]
          processedIds := st.processedIds ++ [id] }

/-- The label-change inner loop (updates), same null-vs-error behaviour as
`processAdded`. -/
def processUpdated (getEmailById : String → Except String (Option α)) :
    List String → ReconState α → Except String (ReconState α)
  | [], st => Except.ok st
  | id :: rest, st =>
    if id ∈ st.processedIds then processUpdated getEmailById rest st
    else
      match getEmailById id with
      | Except.error e => Except.error e
      | Except.ok none => processUpdated getEmailById rest st
      | Except.ok (some email) =>
        processUpdated getEmailById rest
          { st with
            updatedEmails := st.updatedEmails ++ [email]
            updatedIds := st.updatedIds ++ [id]
            processedIds := st.processedIds ++ [id] }

/-- One history record, in source order: additions, then deletions, then —
only when `labelsAdded || labelsRemoved` is present — the concatenated
label changes as updates. -/
def processRecord (getEmailById : String → Except String (Option α))
    (r : HistoryRecord) (st : ReconState α) : Except String (ReconState α) :=
  match (match r.messagesAdded with
         | some ids => processAdded getEmailById ids st
         | none => Except.ok st) with
  | Except.error e => Except.error e
  | Except.ok st₁ =>
    let st₂ := match r.messagesDeleted with
      | some ids => processDeleted ids st₁
      | none => st₁
    if r.labelsAdded.isSome || r.labelsRemoved.isSome then
      processUpdated getEmailById (r.labelsAdded.getD [] ++ r.labelsRemoved.getD []) st₂
    else Except.ok st₂

/-- The fold of `processRecord` over one history page. -/
def processRecords (getEmailById : String → Except String (Option α)) :
    List HistoryRecord → ReconState α → Except String (ReconState α)
  | [], st => Except.ok st
  | r :: rest, st =>
    match processRecord getEmailById r st with
    | Except.error e => Except.error e
    | Except.ok st' => processRecords getEmailById rest st'

/-- `SyncResult` (with the instrumentation id lists alongside the hydrated
email lists, and without wall-clock data). -/
structure SyncResult (α : Type) where
  processedHistoryRecords : Nat
  addedEmails : List α
  addedIds : List String
  deletedEmailIds : List String
  updatedEmails : List α
  updatedIds : List String
  newHistoryId : String
  hasMoreChanges : Bool
  nextPageToken : Option String
deriving DecidableEq

/-- `processSync`: a falsy `startHistoryId` throws before the `try` (not
wrapped); everything raised inside the `try` — the stale-checkpoint error
from `getHistory`, generic fetch failures, hydration errors — is wrapped in
the generic `Failed to process sync: ` message. -/
def processSync (historyList : Except ApiError RawHistoryResponse)
    (getEmailById : String → Except String (Option α))
    (startHistoryId : Option String) : Except String (SyncResult α) :=
  if truthyStr startHistoryId then
    match (match getHistory historyList (startHistoryId.getD "") with
           | Except.error e => Except.error e
           | Except.ok hr =>
             match processRecords getEmailById hr.history {} with
             | Except.error e => Except.error e
             | Except.ok st =>
               Except.ok
                 { processedHistoryRecords := hr.history.length
                   addedEmails := st.addedEmails
                   addedIds := st.addedIds
                   deletedEmailIds := st.deletedEmailIds
                   updatedEmails := st.updatedEmails
                   updatedIds := st.updatedIds
                   newHistoryId := hr.historyId
                   hasMoreChanges := truthyStr hr.nextPageToken
                   nextPageToken := hr.nextPageToken }) with
    | Except.error msg => Except.error ("Failed to process sync: " ++ msg)
    | Except.ok r => Except.ok r
  else Except.error "startHistoryId is required for processSync"

/-! ### Spec-side reconciliation comparators (from the spec's words, for
comparison with the code's behaviour) -/

/-- The three output buckets of a reconciliation pass. -/
inductive Bucket where
  | added
  | deleted
  | updated
deriving DecidableEq

/-- The classification of `id` by one record, scanning the record's
sections in code order (additions, deletions, label changes). -/
def recFirstClass (r : HistoryRecord) (id : String) : Option Bucket :=
  if id ∈ r.messagesAdded.getD [] then some Bucket.added
  else if id ∈ r.messagesDeleted.getD [] then some Bucket.deleted
  else if id ∈ r.labelsAdded.getD [] ++ r.labelsRemoved.getD [] then some Bucket.updated
  else none

/-- Spec-side rule: the bucket of the FIRST record in feed order that
mentions `id` decides its classification. -/
def specFirstClassification : List HistoryRecord → String → Option Bucket
  | [], _ => none
  | r :: rest, id =>
    match recFirstClass r id with
    | some b => some b
    | none => specFirstClassification rest id

/-- The bucket `id` landed in, read off a reconciliation state. -/
def bucketOf (st : ReconState α) (id : String) : Option Bucket :=
  if id ∈ st.addedIds then some Bucket.added
  else if id ∈ st.deletedEmailIds then some Bucket.deleted
  else if id ∈ st.updatedIds then some Bucket.updated
  else none

/-- The bucket `id` landed in, read off a returned `SyncResult`. -/
def resultBucketOf (r : SyncResult α) (id : String) : Option Bucket :=
  if id ∈ r.addedIds then some Bucket.added
  else if id ∈ r.deletedEmailIds then some Bucket.deleted
  else if id ∈ r.updatedIds then some Bucket.updated
  else none

/-- First-some choice on optional buckets (`a` wins when present). -/
def firstSome : Option Bucket → Option Bucket → Option Bucket
  | some b, _ => some b
  | none, b => b

/-- The invariant of the reconciliation loop: ids are marked processed
exactly when (and as often as) they were classified into a bucket. -/
def ReconInv (st : ReconState α) : Prop :=
  st.processedIds.Nodup ∧
  st.processedIds.Perm (st.addedIds ++ st.deletedEmailIds ++ st.updatedIds)

/-- Hydrator resolving every id to an entity (used in examples). -/
def hydrateAll : String → Except String (Option Nat) := fun _ => Except.ok (some 0)

/-- Hydrator resolving every id to `null` (used in examples). -/
def hydrateNone : String → Except String (Option Nat) := fun _ => Except.ok none

/-- Hydrator failing on every id (used in examples). -/
def hydrateFail : String → Except String (Option Nat) := fun _ => Except.error "boom"

/-- Hydrator failing on the id `E` only, resolving every other id (used to
exercise an error occurring after earlier successful hydrations). -/
def hydrateErrOnE : String → Except String (Option Nat) :=
  fun x => if x = "E" then Except.error "boom" else Except.ok (some 0)

/-! ### Concrete callback sets used by witnesses and counterexamples -/

/-- Callbacks whose `onBatch` always throws and with no `onError`. -/
def failingCbs : EmailStreamCallbacks Nat Nat :=
  { onBatch := some fun _ _ => Except.error 7 }

/-- Callbacks whose `onBatch` always throws, with a swallowing `onError`. -/
def swallowingCbs : EmailStreamCallbacks Nat Nat :=
  { onBatch := some fun _ _ => Except.error 7
    onError := some fun _ _ => Except.ok () }

/-- Callbacks whose `onBatch` throws exactly on the second batch, with a
swallowing `onError`. -/
def batch2FailsCbs : EmailStreamCallbacks Nat Nat :=
  { onBatch := some fun _ p => if p.batchCount = 2 then Except.error 0 else Except.ok ()
    onError := some fun _ _ => Except.ok () }

/-! ## Theorems -/

/-! ### Stream engine: unfolding lemmas for `processGo` -/

theorem processGo_nil (cbs : EmailStreamCallbacks α ε) (n : Nat)
    (s : EmailStreamSummary) (d : List (List α)) :
    processGo cbs [] n s d = ⟨s, d, none⟩ := rfl

theorem processGo_cons_ok (cbs : EmailStreamCallbacks α ε) (batch : List α)
    (rest : List (List α)) (n : Nat) (s : EmailStreamSummary) (d : List (List α))
    (h : runCallbacks cbs batch ⟨s.totalProcessed + batch.length, n + 1⟩ = Except.ok ()) :
    processGo cbs (batch :: rest) n s d =
      processGo cbs rest (n + 1) ⟨s.totalProcessed + batch.length, n + 1, s.errors⟩
        (d ++ [batch]) := by
  simp [processGo, h]

theorem processGo_cons_error_noHandler (cbs : EmailStreamCallbacks α ε)
    (batch : List α) (rest : List (List α)) (n : Nat) (s : EmailStreamSummary)
    (d : List (List α)) (e : ε)
    (h : runCallbacks cbs batch ⟨s.totalProcessed + batch.length, n + 1⟩ = Except.error e)
    (hn : cbs.onError = none) :
    processGo cbs (batch :: rest) n s d =
      ⟨⟨s.totalProcessed + batch.length, n + 1, s.errors + 1⟩, d, some e⟩ := by
  simp [processGo, h, hn]

theorem processGo_cons_error_handled (cbs : EmailStreamCallbacks α ε)
    (batch : List α) (rest : List (List α)) (n : Nat) (s : EmailStreamSummary)
    (d : List (List α)) (e : ε)
    (hdl : ε → EmailStreamProgress → Except ε Unit)
    (h : runCallbacks cbs batch ⟨s.totalProcessed + batch.length, n + 1⟩ = Except.error e)
    (hh : cbs.onError = some hdl)
    (hok : hdl e ⟨s.totalProcessed + batch.length, n + 1⟩ = Except.ok ()) :
    processGo cbs (batch :: rest) n s d =
      processGo cbs rest (n + 1)
        ⟨s.totalProcessed + batch.length, n + 1, s.errors + 1⟩ d := by
  simp [processGo, h, hh, hok]

theorem processGo_cons_error_handlerThrows (cbs : EmailStreamCallbacks α ε)
    (batch : List α) (rest : List (List α)) (n : Nat) (s : EmailStreamSummary)
    (d : List (List α)) (e e₂ : ε)
    (hdl : ε → EmailStreamProgress → Except ε Unit)
    (h : runCallbacks cbs batch ⟨s.totalProcessed + batch.length, n + 1⟩ = Except.error e)
    (hh : cbs.onError = some hdl)
    (herr : hdl e ⟨s.totalProcessed + batch.length, n + 1⟩ = Except.error e₂) :
    processGo cbs (batch :: rest) n s d =
      ⟨⟨s.totalProcessed + batch.length, n + 1, s.errors + 1⟩, d, some e₂⟩ := by
  simp [processGo, h, hh, herr]

/-- If the loop runs to completion without an escaping error, the summary
counts every yielded batch in `totalProcessed`, and the failed batches are
exactly accounted for by `errors`. -/
theorem processGo_stats (cbs : EmailStreamCallbacks α ε) (batches : List (List α)) :
    ∀ (n : Nat) (s : EmailStreamSummary) (d : List (List α)),
    (processGo cbs batches n s d).thrown = none →
    (processGo cbs batches n s d).summary.totalProcessed
        = s.totalProcessed + (batches.map List.length).sum ∧
    (processGo cbs batches n s d).summary.errors
          + (processGo cbs batches n s d).delivered.length
        = s.errors + d.length + batches.length := by
  induction batches with
  | nil => intro n s d _; simp [processGo_nil]
  | cons batch rest ih =>
    intro n s d h
    cases hrc : runCallbacks cbs batch ⟨s.totalProcessed + batch.length, n + 1⟩ with
    | ok u =>
      cases u
      rw [processGo_cons_ok cbs batch rest n s d hrc] at h ⊢
      obtain ⟨h1, h2⟩ := ih (n + 1) ⟨s.totalProcessed + batch.length, n + 1, s.errors⟩
        (d ++ [batch]) h
      refine ⟨?_, ?_⟩
      · rw [h1]; simp; omega
      · rw [h2]; simp; omega
    | error e =>
      cases honerr : cbs.onError with
      | none =>
        rw [processGo_cons_error_noHandler cbs batch rest n s d e hrc honerr] at h
        simp at h
      | some hdl =>
        cases hh : hdl e ⟨s.totalProcessed + batch.length, n + 1⟩ with
        | ok u =>
          cases u
          rw [processGo_cons_error_handled cbs batch rest n s d e hdl hrc honerr hh] at h ⊢
          obtain ⟨h1, h2⟩ := ih (n + 1)
            ⟨s.totalProcessed + batch.length, n + 1, s.errors + 1⟩ d h
          refine ⟨?_, ?_⟩
          · rw [h1]; simp; omega
          · rw [h2]; simp; omega
        | error e2 =>
          rw [processGo_cons_error_handlerThrows cbs batch rest n s d e e2 hdl hrc honerr hh]
            at h
          simp at h

theorem processEmailStream_summary (cbs : EmailStreamCallbacks α ε)
    (batches : List (List α)) (genError : Option ε) :
    (processEmailStream cbs batches genError).summary
        = (processGo cbs batches 0 ⟨0, 0, 0⟩ []).summary ∧
    (processEmailStream cbs batches genError).delivered
        = (processGo cbs batches 0 ⟨0, 0, 0⟩ []).delivered := by
  unfold processEmailStream
  cases hth : (processGo cbs batches 0 ⟨0, 0, 0⟩ []).thrown <;> simp [hth]

/-! ### Claim C1 -/

/-- C1 counterexample: with three singleton batches, `onBatch` failing on
batch 2 and a swallowing `onError`, only batches 1 and 3 are delivered (sum
of sizes 2) and `errors = 1`, yet the final `totalProcessed` is 3: the items
of the failed batch are counted, contradicting the claim that they are
excluded entirely from `totalProcessed`. -/
theorem totalProcessed_counts_failed_batch :
    (processEmailStream batch2FailsCbs [[10], [20], [30]] none).delivered.map List.length
        = [1, 1] ∧
    (processEmailStream batch2FailsCbs [[10], [20], [30]] none).summary.errors = 1 ∧
    (processEmailStream batch2FailsCbs [[10], [20], [30]] none).summary.totalProcessed = 3 ∧
    (3 : Nat) ≠ 1 + 1 := by decide

/-- C1 (amended): in every run of `processEmailStream` that completes
without an escaping error, `totalProcessed` equals the sum of the sizes of
ALL batches yielded by the generator — including the batches whose
`onBatch` callback failed, which are additionally accounted for by the
`errors` counter (`errors` + number of successfully delivered batches =
number of yielded batches). -/
theorem totalProcessed_sums_all_yielded_batches (cbs : EmailStreamCallbacks α ε)
    (batches : List (List α)) (genError : Option ε)
    (h : (processEmailStream cbs batches genError).thrown = none) :
    (processEmailStream cbs batches genError).summary.totalProcessed
        = (batches.map List.length).sum ∧
    (processEmailStream cbs batches genError).summary.errors
          + (processEmailStream cbs batches genError).delivered.length
        = batches.length := by
  obtain ⟨hs, hd⟩ := processEmailStream_summary cbs batches genError
  have hth : (processGo cbs batches 0 ⟨0, 0, 0⟩ []).thrown = none := by
    unfold processEmailStream at h
    cases hth : (processGo cbs batches 0 ⟨0, 0, 0⟩ []).thrown with
    | none => rfl
    | some e => simp [hth] at h
  obtain ⟨h1, h2⟩ := processGo_stats cbs batches 0 ⟨0, 0, 0⟩ [] hth
  rw [hs, hd, h1, h2]
  simp

/-- Witness for the amended C1 at a concrete input: every `onBatch` throws
and `onError` swallows, so nothing escapes; both yielded batches (sizes 1
and 2) are counted in `totalProcessed`, none was delivered. -/
theorem totalProcessed_sums_all_yielded_batches_witness :
    (processEmailStream swallowingCbs [[1], [2, 3]] none).thrown = none ∧
    ((processEmailStream swallowingCbs [[1], [2, 3]] none).summary.totalProcessed
        = ([[1], [2, 3]].map List.length).sum ∧
     (processEmailStream swallowingCbs [[1], [2, 3]] none).summary.errors
          + (processEmailStream swallowingCbs [[1], [2, 3]] none).delivered.length
        = [[1], [2, 3]].length) :=
  ⟨by decide, totalProcessed_sums_all_yielded_batches swallowingCbs [[1], [2, 3]] none
      (by decide)⟩

/-! ### Claim C6 -/

/-- C6: when `onBatch` fails on a batch: with no `onError` registered the
failure re-raises (the run ends with that error, the remaining batches are
not processed) after `errors` incremented; with `onError` registered and
returning normally, the failure is swallowed, `errors` increments by one,
and the loop proceeds to the next batch. -/
theorem onBatch_failure_policy (cbs : EmailStreamCallbacks α ε) (batch : List α)
    (rest : List (List α)) (batchNumber : Nat) (s : EmailStreamSummary)
    (delivered : List (List α)) (e : ε)
    (hfail : runCallbacks cbs batch
        ⟨s.totalProcessed + batch.length, batchNumber + 1⟩ = Except.error e) :
    (cbs.onError = none →
      processGo cbs (batch :: rest) batchNumber s delivered =
        ⟨⟨s.totalProcessed + batch.length, batchNumber + 1, s.errors + 1⟩,
          delivered, some e⟩) ∧
    (∀ hdl, cbs.onError = some hdl →
      hdl e ⟨s.totalProcessed + batch.length, batchNumber + 1⟩ = Except.ok () →
      processGo cbs (batch :: rest) batchNumber s delivered =
        processGo cbs rest (batchNumber + 1)
          ⟨s.totalProcessed + batch.length, batchNumber + 1, s.errors + 1⟩ delivered) :=
  ⟨fun hn => processGo_cons_error_noHandler cbs batch rest batchNumber s delivered e hfail hn,
   fun hdl hh hok =>
     processGo_cons_error_handled cbs batch rest batchNumber s delivered e hdl hfail hh hok⟩

/-- Witness for C6 at a concrete input (`onBatch` throws `7`, no handler):
the run stops with error `7` after counting the batch. -/
theorem onBatch_failure_policy_witness :
    runCallbacks failingCbs [3] ⟨1, 1⟩ = Except.error 7 ∧
    ((failingCbs.onError = none →
      processGo failingCbs [[3], [4]] 0 ⟨0, 0, 0⟩ [] =
        ⟨⟨1, 1, 1⟩, [], some 7⟩) ∧
     (∀ hdl, failingCbs.onError = some hdl →
      hdl 7 ⟨1, 1⟩ = Except.ok () →
      processGo failingCbs [[3], [4]] 0 ⟨0, 0, 0⟩ [] =
        processGo failingCbs [[4]] 1 ⟨1, 1, 1⟩ [])) :=
  ⟨rfl, onBatch_failure_policy failingCbs [3] [[4]] 0 ⟨0, 0, 0⟩ [] 7 rfl⟩

/-! ### Claim C8 -/

/-- C8 counterexample: `batchSize = 0` does NOT fail validation — the guard
`options.batchSize && options.batchSize <= 0` is skipped because `0` is
falsy — and the stream then treats `0` as absent, using the default 50. -/
theorem batchSize_zero_passes_validation :
    validateStreamOptions { batchSize := some 0 } = Except.ok () ∧
    effectiveBatchSize { batchSize := some 0 } = 50 := by
  constructor <;> rfl

/-- C8 (amended): validation rejects only a *negative* `batchSize` (with the
`batchSize must be greater than 0` error, raised before any fetch is
issued); `batchSize = 0` passes validation and — like an absent
`batchSize` — the stream uses the default batch size 50. -/
theorem negative_batchSize_rejected_and_defaults
    (b : Int) (maxE : Option Int) (pt : Option String)
    (fetchPageFn : Option String → Int → FetchPageResponse α) (fuel : Nat)
    (hb : b < 0) :
    streamEmails fetchPageFn { batchSize := some b, maxEmails := maxE, pageToken := pt } fuel
        = Except.error "batchSize must be greater than 0" ∧
    createEmailStream fetchPageFn
        { batchSize := none, maxEmails := maxE, pageToken := pt } fuel
      = createEmailStream fetchPageFn
        { batchSize := some 50, maxEmails := maxE, pageToken := pt } fuel ∧
    createEmailStream fetchPageFn
        { batchSize := some 0, maxEmails := maxE, pageToken := pt } fuel
      = createEmailStream fetchPageFn
        { batchSize := some 50, maxEmails := maxE, pageToken := pt } fuel := by
  have h1 : truthyInt (some b) = true := by
    simp only [truthyInt, decide_eq_true_eq]; omega
  have h2 : b ≤ 0 := le_of_lt hb
  refine ⟨?_, ?_, ?_⟩
  · simp [streamEmails, validateStreamOptions, h1, h2]
  · simp [createEmailStream, effectiveBatchSize, truthyInt]
  · simp [createEmailStream, effectiveBatchSize, truthyInt]

/-- Witness for the amended C8 at `batchSize = -1` with a trivial fetch. -/
theorem negative_batchSize_rejected_and_defaults_witness :
    ((-1 : Int) < 0) ∧
    (streamEmails (fun (_ : Option String) (_ : Int) => (⟨[], none, none⟩ : FetchPageResponse Nat))
        { batchSize := some (-1), maxEmails := none, pageToken := none } 1
        = Except.error "batchSize must be greater than 0" ∧
     createEmailStream (fun (_ : Option String) (_ : Int) => (⟨[], none, none⟩ : FetchPageResponse Nat))
        { batchSize := none, maxEmails := none, pageToken := none } 1
      = createEmailStream (fun (_ : Option String) (_ : Int) => (⟨[], none, none⟩ : FetchPageResponse Nat))
        { batchSize := some 50, maxEmails := none, pageToken := none } 1 ∧
     createEmailStream (fun (_ : Option String) (_ : Int) => (⟨[], none, none⟩ : FetchPageResponse Nat))
        { batchSize := some 0, maxEmails := none, pageToken := none } 1
      = createEmailStream (fun (_ : Option String) (_ : Int) => (⟨[], none, none⟩ : FetchPageResponse Nat))
        { batchSize := some 50, maxEmails := none, pageToken := none } 1) :=
  ⟨by decide,
   negative_batchSize_rejected_and_defaults (-1) none none
     (fun _ _ => ⟨[], none, none⟩) 1 (by decide)⟩

/-! ### Pagination: helper lemmas -/

theorem pageTokenFor_length (i : Nat) : (pageTokenFor i).length = i := by
  simp [pageTokenFor, String.length]

theorem pageTokenFor_ne_empty (i : Nat) : pageTokenFor (i + 1) ≠ "" := by
  intro h
  have hlen := congrArg String.length h
  rw [pageTokenFor_length] at hlen
  simp at hlen

theorem truthyStr_pageTokenFor (i : Nat) :
    truthyStr (some (pageTokenFor (i + 1))) = true := by
  simp [truthyStr, pageTokenFor_ne_empty]

theorem truthyStr_eq_some (o : Option String) (h : truthyStr o = true) :
    o = some (o.getD "") := by
  cases o with
  | none => simp [truthyStr] at h
  | some t => rfl

theorem pageFeed_tokenAt (pages : List (List α)) (i : Nat) (ps : Int) :
    pageFeed pages (tokenAt i) ps =
      { emails := pages.getD i []
        nextPageToken :=
          if i + 1 < pages.length then some (pageTokenFor (i + 1)) else none
        totalCount := none } := by
  unfold pageFeed tokenAt
  by_cases h : i = 0
  · subst h; rfl
  · simp [h, pageTokenFor_length]

theorem fetchCurrentPage_pageFeed (pages : List (List α)) (i : Nat)
    (s : PaginationState) (hs : s.currentPageToken = tokenAt i) :
    (fetchCurrentPage (pageFeed pages) s).data = pages.getD i [] ∧
    (fetchCurrentPage (pageFeed pages) s).pagination.hasNextPage
        = decide (i + 1 < pages.length) := by
  unfold fetchCurrentPage createPaginationMetadata
  rw [hs, pageFeed_tokenAt pages i s.pageSize]
  refine ⟨rfl, ?_⟩
  by_cases h : i + 1 < pages.length <;>
    simp [h, truthyStr, pageTokenFor_ne_empty]

theorem goToNextPage_pageFeed (pages : List (List α)) (i : Nat)
    (s : PaginationState) (hs : s.currentPageToken = tokenAt i)
    (hlt : i + 1 < pages.length) :
    ∃ s' r, goToNextPage (pageFeed pages) s = NavResult.ok s' r ∧
      s'.currentPageToken = tokenAt (i + 1) := by
  unfold goToNextPage
  rw [hs, pageFeed_tokenAt pages i s.pageSize]
  simp only [hlt, if_true, truthyStr_pageTokenFor]
  exact ⟨_, _, rfl, by simp [tokenAt]⟩

theorem drop_flatten_step (pages : List (List α)) (i : Nat) (h : i + 1 < pages.length) :
    (pages.drop i).flatten = pages.getD i [] ++ (pages.drop (i + 1)).flatten := by
  have hi : i < pages.length := by omega
  rw [List.drop_eq_getElem_cons hi, List.flatten_cons, List.getD_eq_getElem _ _ hi]

theorem drop_flatten_last (pages : List (List α)) (i : Nat) (h : ¬ i + 1 < pages.length) :
    (pages.drop i).flatten = pages.getD i [] := by
  by_cases hi : i < pages.length
  · rw [List.drop_eq_getElem_cons hi, List.flatten_cons, List.getD_eq_getElem _ _ hi]
    have hnil : pages.drop (i + 1) = [] := List.drop_eq_nil_of_le (by omega)
    simp [hnil]
  · have hnil : pages.drop i = [] := List.drop_eq_nil_of_le (by omega)
    rw [hnil, List.getD_eq_default _ _ (by omega : pages.length ≤ i)]
    rfl

theorem fetchAllLoop_succ_stop (fetch : Option String → Int → FetchPageResponse α)
    (maxE : Option Nat) (fuel : Nat) (s : PaginationState) (acc : List α) (tp : Nat)
    (hcond : (truthyNat maxE &&
        decide ((acc ++ (fetchCurrentPage fetch s).data).length ≥ maxE.getD 0)) = true) :
    fetchAllLoop fetch maxE (fuel + 1) s acc tp =
      some (acc ++ (fetchCurrentPage fetch s).data, tp + 1, s) := by
  simp only [fetchAllLoop]
  rw [hcond]
  simp

theorem fetchAllLoop_succ_next (fetch : Option String → Int → FetchPageResponse α)
    (maxE : Option Nat) (fuel : Nat) (s s' : PaginationState) (acc : List α)
    (tp : Nat) (r : PaginatedResponse α)
    (hcond : (truthyNat maxE &&
        decide ((acc ++ (fetchCurrentPage fetch s).data).length ≥ maxE.getD 0)) = false)
    (hnext : (fetchCurrentPage fetch s).pagination.hasNextPage = true)
    (hgo : goToNextPage fetch s = NavResult.ok s' r) :
    fetchAllLoop fetch maxE (fuel + 1) s acc tp =
      fetchAllLoop fetch maxE fuel s' (acc ++ (fetchCurrentPage fetch s).data) (tp + 1) := by
  simp only [fetchAllLoop]
  rw [hcond, hnext, hgo]
  simp

theorem fetchAllLoop_succ_last (fetch : Option String → Int → FetchPageResponse α)
    (maxE : Option Nat) (fuel : Nat) (s : PaginationState) (acc : List α) (tp : Nat)
    (hcond : (truthyNat maxE &&
        decide ((acc ++ (fetchCurrentPage fetch s).data).length ≥ maxE.getD 0)) = false)
    (hnext : (fetchCurrentPage fetch s).pagination.hasNextPage = false) :
    fetchAllLoop fetch maxE (fuel + 1) s acc tp =
      some (acc ++ (fetchCurrentPage fetch s).data, tp + 1, s) := by
  simp only [fetchAllLoop]
  rw [hcond, hnext]
  simp

/-- Main loop invariant for `fetchAllPages` over a frozen paged feed: with
enough fuel the loop terminates, and the aggregate either already reached
the `maxEmails` bound `N` or contains everything from page `i` on. -/
theorem fetchAllLoop_pageFeed (pages : List (List α)) (N : Nat) (hN : 0 < N) :
    ∀ (fuel i : Nat) (s : PaginationState) (acc : List α) (tp : Nat),
    s.currentPageToken = tokenAt i →
    pages.length - i < fuel →
    ∃ out tp' s',
      fetchAllLoop (pageFeed pages) (some N) fuel s acc tp = some (out, tp', s') ∧
      (N ≤ out.length ∨ out = acc ++ (pages.drop i).flatten) := by
  intro fuel
  induction fuel with
  | zero => intro i s acc tp _ hfuel; omega
  | succ fuel ih =>
    intro i s acc tp hs hfuel
    obtain ⟨hdata, hnext⟩ := fetchCurrentPage_pageFeed pages i s hs
    by_cases hstop : N ≤ (acc ++ (fetchCurrentPage (pageFeed pages) s).data).length
    · have hcond : (truthyNat (some N) &&
          decide ((acc ++ (fetchCurrentPage (pageFeed pages) s).data).length
            ≥ (some N).getD 0)) = true := by
        rw [Bool.and_eq_true]
        refine ⟨?_, ?_⟩
        · simp only [truthyNat, decide_eq_true_eq]; omega
        · simpa [ge_iff_le] using hstop
      rw [fetchAllLoop_succ_stop (pageFeed pages) (some N) fuel s acc tp hcond]
      exact ⟨_, _, _, rfl, Or.inl hstop⟩
    · have hdec : decide ((acc ++ (fetchCurrentPage (pageFeed pages) s).data).length
          ≥ (some N).getD 0) = false := by
        rw [decide_eq_false_iff_not]
        simpa [ge_iff_le] using hstop
      have hcond : (truthyNat (some N) &&
          decide ((acc ++ (fetchCurrentPage (pageFeed pages) s).data).length
            ≥ (some N).getD 0)) = false := by
        rw [hdec, Bool.and_false]
      by_cases hlt : i + 1 < pages.length
      · obtain ⟨s', r, hgo, hs'⟩ := goToNextPage_pageFeed pages i s hs hlt
        rw [fetchAllLoop_succ_next (pageFeed pages) (some N) fuel s s' acc tp r hcond
          (by rw [hnext]; simpa using hlt) hgo]
        obtain ⟨out, tp', s'', hloop, hdisj⟩ :=
          ih (i + 1) s' (acc ++ (fetchCurrentPage (pageFeed pages) s).data) (tp + 1)
            hs' (by omega)
        refine ⟨out, tp', s'', hloop, ?_⟩
        cases hdisj with
        | inl hge => exact Or.inl hge
        | inr heq =>
          refine Or.inr ?_
          rw [heq, hdata, drop_flatten_step pages i hlt, List.append_assoc]
      · rw [fetchAllLoop_succ_last (pageFeed pages) (some N) fuel s acc tp hcond
          (by rw [hnext]; simpa using hlt)]
        refine ⟨_, _, _, rfl, Or.inr ?_⟩
        rw [hdata, drop_flatten_last pages i hlt]

/-! ### Claim C4 -/

/-- C4 counterexample: from the initial state (page 1, no cursor), a
successful `goToNextPage` pushes nothing onto the history (the absent
cursor is falsy), so the immediately following `goToPreviousPage` throws
`No previous page available` and the state remains on page 2 with the new
cursor — the prior `currentPageToken`/`currentPage` are NOT restored. -/
theorem next_then_previous_fails_from_first_page :
    (goToNextPage (pageFeed [[1], [2]]) ({} : PaginationState)).isOk = true ∧
    (goToNextPage (pageFeed [[1], [2]]) ({} : PaginationState)).state.currentPage = 2 ∧
    (goToPreviousPage (pageFeed [[1], [2]])
        ((goToNextPage (pageFeed [[1], [2]]) ({} : PaginationState)).state)).isOk = false ∧
    (goToPreviousPage (pageFeed [[1], [2]])
        ((goToNextPage (pageFeed [[1], [2]]) ({} : PaginationState)).state)).state.currentPage
        = 2 ∧
    (goToPreviousPage (pageFeed [[1], [2]])
        ((goToNextPage (pageFeed [[1], [2]]) ({} : PaginationState)).state)).state.currentPageToken
        = some (pageTokenFor 1) := by
  decide

/-- C4 (amended): when the state before `goToNextPage` holds a truthy
(non-null, non-empty) `currentPageToken`, a successful `goToNextPage`
followed by `goToPreviousPage` restores the prior `currentPageToken` and
`currentPage`; from the initial page-1 state (null cursor) the following
`goToPreviousPage` instead throws `No previous page available`. -/
theorem next_then_previous_restores (fetch : Option String → Int → FetchPageResponse α)
    (s : PaginationState)
    (htok : truthyStr s.currentPageToken = true)
    (hok : (goToNextPage fetch s).isOk = true) :
    (goToPreviousPage fetch ((goToNextPage fetch s).state)).isOk = true ∧
    (goToPreviousPage fetch ((goToNextPage fetch s).state)).state.currentPageToken
        = s.currentPageToken ∧
    (goToPreviousPage fetch ((goToNextPage fetch s).state)).state.currentPage
        = s.currentPage := by
  by_cases hnt : truthyStr (fetch s.currentPageToken s.pageSize).nextPageToken = true
  · have hstate : (goToNextPage fetch s).state =
        { s with
          currentPageToken := (fetch s.currentPageToken s.pageSize).nextPageToken
          previousPageTokens := s.previousPageTokens ++ [s.currentPageToken.getD ""]
          currentPage := s.currentPage + 1
          totalFetched :=
            s.totalFetched + (fetch s.currentPageToken s.pageSize).emails.length } := by
      simp [goToNextPage, htok, hnt, NavResult.state]
    rw [hstate]
    unfold goToPreviousPage
    simp only [List.length_append, List.length_cons, List.length_nil]
    have hne : s.previousPageTokens.length + (0 + 1) = 0 → False := by omega
    simp only [Nat.add_eq, if_neg (by omega : ¬ s.previousPageTokens.length + 1 = 0)]
    refine ⟨rfl, ?_, ?_⟩
    · simp [NavResult.state, List.getLast?_concat]
      exact (truthyStr_eq_some s.currentPageToken htok).symm
    · simp [NavResult.state]
  · exfalso
    have : goToNextPage fetch s = NavResult.err
        (if truthyStr s.currentPageToken then
          { s with previousPageTokens :=
              s.previousPageTokens ++ [s.currentPageToken.getD ""] }
         else s) "No next page available" := by
      simp [goToNextPage, hnt]
    rw [this] at hok
    simp [NavResult.isOk] at hok

/-- Witness for the amended C4: starting on page 2 with cursor `"1"` over a
three-page feed, next-then-previous succeeds and restores cursor and page. -/
theorem next_then_previous_restores_witness :
    truthyStr (some (pageTokenFor 1)) = true ∧
    (goToNextPage (pageFeed [[1], [2], [3]])
        { currentPageToken := some (pageTokenFor 1), currentPage := 2 }).isOk = true ∧
    ((goToPreviousPage (pageFeed [[1], [2], [3]])
        ((goToNextPage (pageFeed [[1], [2], [3]])
          { currentPageToken := some (pageTokenFor 1), currentPage := 2 }).state)).isOk = true ∧
     (goToPreviousPage (pageFeed [[1], [2], [3]])
        ((goToNextPage (pageFeed [[1], [2], [3]])
          { currentPageToken := some (pageTokenFor 1), currentPage := 2 }).state)).state.currentPageToken
        = some (pageTokenFor 1) ∧
     (goToPreviousPage (pageFeed [[1], [2], [3]])
        ((goToNextPage (pageFeed [[1], [2], [3]])
          { currentPageToken := some (pageTokenFor 1), currentPage := 2 }).state)).state.currentPage
        = 2) :=
  ⟨by decide, by decide,
   next_then_previous_restores (pageFeed [[1], [2], [3]])
     { currentPageToken := some (pageTokenFor 1), currentPage := 2 }
     (by decide) (by decide)⟩

/-! ### Claim C7 -/

/-- C7: over any frozen paged feed, `fetchAllPages` with `maxEmails = N > 0`
(and sufficient fuel for the finite feed) succeeds, returns at most `N`
items, and returns exactly `N` items whenever the feed holds at least `N`
items in total. -/
theorem fetchAllPages_maxEmails_length (pages : List (List α)) (N : Nat)
    (s : PaginationState) (hN : 0 < N) :
    ∃ resp sEnd,
      fetchAllPages (pageFeed pages) (some N) (pages.length + 1) s = some (resp, sEnd) ∧
      resp.data.length ≤ N ∧
      (N ≤ pages.flatten.length → resp.data.length = N) := by
  obtain ⟨out, tp', s', hloop, hdisj⟩ :=
    fetchAllLoop_pageFeed pages N hN (pages.length + 1) 0
      ((goToFirstPage (pageFeed pages) s).1) [] 0
      (by simp [goToFirstPage, tokenAt]) (by omega)
  have htr : truthyNat (some N) = true := by
    simp only [truthyNat, decide_eq_true_eq]; omega
  unfold fetchAllPages
  simp only [hloop, htr, if_true]
  refine ⟨_, _, rfl, ?_, ?_⟩
  · simp [List.length_take]
  · intro hfeed
    have hout : N ≤ out.length := by
      cases hdisj with
      | inl h => exact h
      | inr h => rw [h]; simpa using hfeed
    simp [List.length_take, Nat.min_eq_left hout]

/-- Witness for C7: feed `[[1,2],[3,4],[5]]` (5 items) with `maxEmails = 4`
returns exactly 4 items. -/
theorem fetchAllPages_maxEmails_length_witness :
    (0 : Nat) < 4 ∧
    (∃ resp sEnd,
      fetchAllPages (pageFeed [[1, 2], [3, 4], [5]]) (some 4)
          ([[1, 2], [3, 4], [5]].length + 1) ({} : PaginationState) = some (resp, sEnd) ∧
      resp.data.length ≤ 4 ∧
      (4 ≤ [[1, 2], [3, 4], [5]].flatten.length → resp.data.length = 4)) :=
  ⟨by decide,
   fetchAllPages_maxEmails_length [[1, 2], [3, 4], [5]] 4 ({} : PaginationState) (by decide)⟩

/-! ### Claim C10 -/

/-- C10: when `goToNextPage` is called with a truthy `currentPageToken` and
the freshly fetched page reports no truthy `nextPageToken`, the call throws
`No next page available` but only after pushing the current cursor: the
history has grown by exactly one entry while `currentPageToken` and
`currentPage` are unchanged. -/
theorem failed_next_pushes_history (fetch : Option String → Int → FetchPageResponse α)
    (s : PaginationState)
    (htok : truthyStr s.currentPageToken = true)
    (hnonext : truthyStr (fetch s.currentPageToken s.pageSize).nextPageToken = false) :
    goToNextPage fetch s =
      NavResult.err
        { s with previousPageTokens :=
            s.previousPageTokens ++ [s.currentPageToken.getD ""] }
        "No next page available" ∧
    (goToNextPage fetch s).state.previousPageTokens.length
        = s.previousPageTokens.length + 1 ∧
    (goToNextPage fetch s).state.currentPageToken = s.currentPageToken ∧
    (goToNextPage fetch s).state.currentPage = s.currentPage := by
  have h1 : goToNextPage fetch s =
      NavResult.err
        { s with previousPageTokens :=
            s.previousPageTokens ++ [s.currentPageToken.getD ""] }
        "No next page available" := by
    simp [goToNextPage, htok, hnonext]
  refine ⟨h1, ?_, ?_, ?_⟩ <;> rw [h1] <;> simp [NavResult.state]

/-- Witness for C10: on page 2 of a two-page feed (cursor `"1"`, last
page), `goToNextPage` throws yet the cursor `"1"` was pushed. -/
theorem failed_next_pushes_history_witness :
    truthyStr (some (pageTokenFor 1)) = true ∧
    truthyStr ((pageFeed [[1], [2]] : Option String → Int → FetchPageResponse Nat)
        (some (pageTokenFor 1)) 20).nextPageToken = false ∧
    (goToNextPage (pageFeed [[1], [2]])
        { currentPageToken := some (pageTokenFor 1), currentPage := 2 } =
      NavResult.err
        { currentPageToken := some (pageTokenFor 1)
          previousPageTokens := [pageTokenFor 1]
          currentPage := 2 }
        "No next page available" ∧
     (goToNextPage (pageFeed [[1], [2]])
        { currentPageToken := some (pageTokenFor 1), currentPage := 2 }).state.previousPageTokens.length
        = 1 ∧
     (goToNextPage (pageFeed [[1], [2]])
        { currentPageToken := some (pageTokenFor 1), currentPage := 2 }).state.currentPageToken
        = some (pageTokenFor 1) ∧
     (goToNextPage (pageFeed [[1], [2]])
        { currentPageToken := some (pageTokenFor 1), currentPage := 2 }).state.currentPage
        = 2) :=
  ⟨by decide, by decide,
   failed_next_pushes_history (pageFeed [[1], [2]])
     { currentPageToken := some (pageTokenFor 1), currentPage := 2 }
     (by decide) (by decide)⟩

/-! ### Sync: invariant preservation lemmas -/

theorem reconInv_empty : ReconInv ({} : ReconState α) := by
  exact ⟨List.nodup_nil, by simp⟩

theorem reconInv_push_added (st : ReconState α) (x : String) (em : α)
    (hx : x ∉ st.processedIds) (hinv : ReconInv st) :
    ReconInv { st with
      addedEmails := st.addedEmails ++ [em]
      addedIds := st.addedIds ++ [x]
      processedIds := st.processedIds ++ [x] } := by
  obtain ⟨hnd, hperm⟩ := hinv
  refine ⟨?_, ?_⟩
  · simp [List.nodup_append, hnd, hx]
  · have h1 := hperm.append_right [x]
    refine h1.trans ?_
    simp only [List.append_assoc]
    refine List.Perm.append_left st.addedIds ?_
    rw [← List.append_assoc]
    exact List.perm_append_comm

theorem reconInv_push_deleted (st : ReconState α) (x : String)
    (hx : x ∉ st.processedIds) (hinv : ReconInv st) :
    ReconInv { st with
      deletedEmailIds := st.deletedEmailIds ++ [x]
      processedIds := st.processedIds ++ [x] } := by
  obtain ⟨hnd, hperm⟩ := hinv
  refine ⟨?_, ?_⟩
  · simp [List.nodup_append, hnd, hx]
  · have h1 := hperm.append_right [x]
    refine h1.trans ?_
    simp only [List.append_assoc]
    refine List.Perm.append_left st.addedIds ?_
    exact List.Perm.append_left _ List.perm_append_comm

theorem reconInv_push_updated (st : ReconState α) (x : String) (em : α)
    (hx : x ∉ st.processedIds) (hinv : ReconInv st) :
    ReconInv { st with
      updatedEmails := st.updatedEmails ++ [em]
      updatedIds := st.updatedIds ++ [x]
      processedIds := st.processedIds ++ [x] } := by
  obtain ⟨hnd, hperm⟩ := hinv
  refine ⟨?_, ?_⟩
  · simp [List.nodup_append, hnd, hx]
  · have h1 := hperm.append_right [x]
    refine h1.trans ?_
    simp [List.append_assoc]

/-- Full characterization of one `processAdded` run that returned `ok`:
the other buckets are untouched, the invariant is preserved, and `x` ends
processed / in `addedIds` exactly when it was before or it occurs in `ids`,
was unseen, and hydrates to an entity. -/
theorem processAdded_ok_inv (g : String → Except String (Option α)) :
    ∀ (ids : List String) (st st' : ReconState α),
    processAdded g ids st = Except.ok st' →
    (st'.deletedEmailIds = st.deletedEmailIds ∧
     st'.updatedIds = st.updatedIds ∧
     st'.updatedEmails = st.updatedEmails) ∧
    (ReconInv st → ReconInv st') ∧
    (∀ x, x ∈ st'.processedIds ↔
      x ∈ st.processedIds ∨ (x ∈ ids ∧ ∃ em, g x = Except.ok (some em))) ∧
    (∀ x, x ∈ st'.addedIds ↔
      x ∈ st.addedIds ∨
        (x ∈ ids ∧ x ∉ st.processedIds ∧ ∃ em, g x = Except.ok (some em))) := by
  intro ids
  induction ids with
  | nil =>
    intro st st' h
    simp only [processAdded] at h
    cases h
    refine ⟨⟨rfl, rfl, rfl⟩, fun hi => hi, ?_, ?_⟩ <;> intro x <;> simp
  | cons id₀ rest ih =>
    intro st st' h
    simp only [processAdded] at h
    by_cases hc : id₀ ∈ st.processedIds
    · rw [if_pos hc] at h
      obtain ⟨heq, hinv, hproc, hadd⟩ := ih st st' h
      refine ⟨heq, hinv, ?_, ?_⟩
      · intro x
        rw [hproc x]
        simp only [List.mem_cons]
        by_cases hx0 : x = id₀
        · subst hx0; tauto
        · tauto
      · intro x
        rw [hadd x]
        simp only [List.mem_cons]
        by_cases hx0 : x = id₀
        · subst hx0; tauto
        · tauto
    · rw [if_neg hc] at h
      cases hg : g id₀ with
      | error e => rw [hg] at h; cases h
      | ok oe =>
        rw [hg] at h
        cases oe with
        | none =>
          obtain ⟨heq, hinv, hproc, hadd⟩ := ih st st' h
          have hnyd : ¬ ∃ em, g id₀ = Except.ok (some em) := by
            rintro ⟨em, hem⟩; rw [hg] at hem; simp at hem
          refine ⟨heq, hinv, ?_, ?_⟩
          · intro x
            rw [hproc x]
            simp only [List.mem_cons]
            by_cases hx0 : x = id₀
            · subst hx0; tauto
            · tauto
          · intro x
            rw [hadd x]
            simp only [List.mem_cons]
            by_cases hx0 : x = id₀
            · subst hx0; tauto
            · tauto
        | some em₀ =>
          obtain ⟨⟨hd, hu, hue⟩, hinv, hproc, hadd⟩ := ih _ st' h
          have hyd : ∃ em, g id₀ = Except.ok (some em) := ⟨em₀, hg⟩
          refine ⟨⟨by simpa using hd, by simpa using hu, by simpa using hue⟩, ?_, ?_, ?_⟩
          · intro hi; exact hinv (reconInv_push_added st id₀ em₀ hc hi)
          · intro x
            rw [hproc x]
            simp only [List.mem_append, List.mem_singleton, List.mem_cons]
            by_cases hx0 : x = id₀
            · subst hx0; tauto
            · tauto
          · intro x
            rw [hadd x]
            simp only [List.mem_append, List.mem_singleton, List.mem_cons]
            by_cases hx0 : x = id₀
            · subst hx0; tauto
            · tauto

/-- Counterpart of `processAdded_ok_inv` for the label-change loop. -/
theorem processUpdated_ok_inv (g : String → Except String (Option α)) :
    ∀ (ids : List String) (st st' : ReconState α),
    processUpdated g ids st = Except.ok st' →
    (st'.deletedEmailIds = st.deletedEmailIds ∧
     st'.addedIds = st.addedIds ∧
     st'.addedEmails = st.addedEmails) ∧
    (ReconInv st → ReconInv st') ∧
    (∀ x, x ∈ st'.processedIds ↔
      x ∈ st.processedIds ∨ (x ∈ ids ∧ ∃ em, g x = Except.ok (some em))) ∧
    (∀ x, x ∈ st'.updatedIds ↔
      x ∈ st.updatedIds ∨
        (x ∈ ids ∧ x ∉ st.processedIds ∧ ∃ em, g x = Except.ok (some em))) := by
  intro ids
  induction ids with
  | nil =>
    intro st st' h
    simp only [processUpdated] at h
    cases h
    refine ⟨⟨rfl, rfl, rfl⟩, fun hi => hi, ?_, ?_⟩ <;> intro x <;> simp
  | cons id₀ rest ih =>
    intro st st' h
    simp only [processUpdated] at h
    by_cases hc : id₀ ∈ st.processedIds
    · rw [if_pos hc] at h
      obtain ⟨heq, hinv, hproc, hupd⟩ := ih st st' h
      refine ⟨heq, hinv, ?_, ?_⟩
      · intro x
        rw [hproc x]
        simp only [List.mem_cons]
        by_cases hx0 : x = id₀
        · subst hx0; tauto
        · tauto
      · intro x
        rw [hupd x]
        simp only [List.mem_cons]
        by_cases hx0 : x = id₀
        · subst hx0; tauto
        · tauto
    · rw [if_neg hc] at h
      cases hg : g id₀ with
      | error e => rw [hg] at h; cases h
      | ok oe =>
        rw [hg] at h
        cases oe with
        | none =>
          obtain ⟨heq, hinv, hproc, hupd⟩ := ih st st' h
          have hnyd : ¬ ∃ em, g id₀ = Except.ok (some em) := by
            rintro ⟨em, hem⟩; rw [hg] at hem; simp at hem
          refine ⟨heq, hinv, ?_, ?_⟩
          · intro x
            rw [hproc x]
            simp only [List.mem_cons]
            by_cases hx0 : x = id₀
            · subst hx0; tauto
            · tauto
          · intro x
            rw [hupd x]
            simp only [List.mem_cons]
            by_cases hx0 : x = id₀
            · subst hx0; tauto
            · tauto
        | some em₀ =>
          obtain ⟨⟨hd, ha, hae⟩, hinv, hproc, hupd⟩ := ih _ st' h
          have hyd : ∃ em, g id₀ = Except.ok (some em) := ⟨em₀, hg⟩
          refine ⟨⟨by simpa using hd, by simpa using ha, by simpa using hae⟩, ?_, ?_, ?_⟩
          · intro hi; exact hinv (reconInv_push_updated st id₀ em₀ hc hi)
          · intro x
            rw [hproc x]
            simp only [List.mem_append, List.mem_singleton, List.mem_cons]
            by_cases hx0 : x = id₀
            · subst hx0; tauto
            · tauto
          · intro x
            rw [hupd x]
            simp only [List.mem_append, List.mem_singleton, List.mem_cons]
            by_cases hx0 : x = id₀
            · subst hx0; tauto
            · tauto

/-- Counterpart of `processAdded_ok_inv` for the (total) deletion loop. -/
theorem processDeleted_inv :
    ∀ (ids : List String) (st : ReconState α),
    ((processDeleted ids st).addedIds = st.addedIds ∧
     (processDeleted ids st).addedEmails = st.addedEmails ∧
     (processDeleted ids st).updatedIds = st.updatedIds ∧
     (processDeleted ids st).updatedEmails = st.updatedEmails) ∧
    (ReconInv st → ReconInv (processDeleted ids st)) ∧
    (∀ x, x ∈ (processDeleted ids st).processedIds ↔
      x ∈ st.processedIds ∨ x ∈ ids) ∧
    (∀ x, x ∈ (processDeleted ids st).deletedEmailIds ↔
      x ∈ st.deletedEmailIds ∨ (x ∈ ids ∧ x ∉ st.processedIds)) := by
  intro ids
  induction ids with
  | nil =>
    intro st
    refine ⟨⟨rfl, rfl, rfl, rfl⟩, fun hi => hi, ?_, ?_⟩ <;> intro x <;>
      simp [processDeleted]
  | cons id₀ rest ih =>
    intro st
    by_cases hc : id₀ ∈ st.processedIds
    · have hstep : processDeleted (id₀ :: rest) st = processDeleted rest st := by
        simp only [processDeleted, if_pos hc]
      rw [hstep]
      obtain ⟨heq, hinv, hproc, hdel⟩ := ih st
      refine ⟨heq, hinv, ?_, ?_⟩
      · intro x
        rw [hproc x]
        simp only [List.mem_cons]
        by_cases hx0 : x = id₀
        · subst hx0; tauto
        · tauto
      · intro x
        rw [hdel x]
        simp only [List.mem_cons]
        by_cases hx0 : x = id₀
        · subst hx0; tauto
        · tauto
    · have hstep : processDeleted (id₀ :: rest) st =
          processDeleted rest
            { st with
              deletedEmailIds := st.deletedEmailIds ++ [id₀]
              processedIds := st.processedIds ++ [id₀] } := by
        simp only [processDeleted, if_neg hc]
      rw [hstep]
      obtain ⟨⟨ha, hae, hu, hue⟩, hinv, hproc, hdel⟩ := ih
        { st with
          deletedEmailIds := st.deletedEmailIds ++ [id₀]
          processedIds := st.processedIds ++ [id₀] }
      refine ⟨⟨by simpa using ha, by simpa using hae, by simpa using hu,
        by simpa using hue⟩, ?_, ?_, ?_⟩
      · intro hi; exact hinv (reconInv_push_deleted st id₀ hc hi)
      · intro x
        rw [hproc x]
        simp only [List.mem_append, List.mem_singleton, List.mem_cons]
        by_cases hx0 : x = id₀
        · subst hx0; tauto
        · tauto
      · intro x
        rw [hdel x]
        simp only [List.mem_append, List.mem_singleton, List.mem_cons]
        by_cases hx0 : x = id₀
        · subst hx0; tauto
        · tauto

/-- Normal form of `processRecord`: the absent-section branches coincide
with running the loops on the empty list. -/
theorem processRecord_eq (g : String → Except String (Option α))
    (r : HistoryRecord) (st : ReconState α) :
    processRecord g r st =
      match processAdded g (r.messagesAdded.getD []) st with
      | Except.error e => Except.error e
      | Except.ok st₁ =>
        processUpdated g (r.labelsAdded.getD [] ++ r.labelsRemoved.getD [])
          (processDeleted (r.messagesDeleted.getD []) st₁) := by
  rcases r with ⟨ma, md, la, lr⟩
  cases ma <;> cases md <;> cases la <;> cases lr <;>
    simp [processRecord, processAdded, processDeleted, processUpdated]

theorem firstSome_assoc (a b c : Option Bucket) :
    firstSome (firstSome a b) c = firstSome a (firstSome b c) := by
  cases a <;> cases b <;> rfl

theorem specFirstClassification_cons (r : HistoryRecord) (rest : List HistoryRecord)
    (x : String) :
    specFirstClassification (r :: rest) x =
      firstSome (recFirstClass r x) (specFirstClassification rest x) := by
  simp only [specFirstClassification]
  cases recFirstClass r x <;> rfl

/-- One record preserves the invariant; ids hydrating to `null` never enter
the added/updated buckets; and — under the invariant — an id that hydrates
to an entity keeps its previous bucket or takes the record's first
classification for it. -/
theorem processRecord_ok_inv (g : String → Except String (Option α))
    (r : HistoryRecord) (st st' : ReconState α)
    (h : processRecord g r st = Except.ok st') :
    (ReconInv st → ReconInv st') ∧
    (∀ x, g x = Except.ok none →
      ((x ∈ st'.addedIds ↔ x ∈ st.addedIds) ∧
       (x ∈ st'.updatedIds ↔ x ∈ st.updatedIds))) ∧
    (ReconInv st → ∀ x em, g x = Except.ok (some em) →
      bucketOf st' x = firstSome (bucketOf st x) (recFirstClass r x)) := by
  rw [processRecord_eq] at h
  cases hA : processAdded g (r.messagesAdded.getD []) st with
  | error e => rw [hA] at h; cases h
  | ok st₁ =>
    rw [hA] at h
    obtain ⟨⟨hdA, huA, hueA⟩, hinvA, hprocA, haddA⟩ :=
      processAdded_ok_inv g (r.messagesAdded.getD []) st st₁ hA
    obtain ⟨⟨ha2, hae2, hu2, hue2⟩, hinv2, hproc2, hdel2⟩ :=
      processDeleted_inv (r.messagesDeleted.getD []) st₁
    obtain ⟨⟨hdU, haU, haeU⟩, hinvU, hprocU, hupdU⟩ :=
      processUpdated_ok_inv g (r.labelsAdded.getD [] ++ r.labelsRemoved.getD [])
        (processDeleted (r.messagesDeleted.getD []) st₁) st' h
    refine ⟨?_, ?_, ?_⟩
    · intro hi
      exact hinvU (hinv2 (hinvA hi))
    · intro x hnull
      have hnyd : ¬ ∃ em, g x = Except.ok (some em) := by
        rintro ⟨em, hem⟩; rw [hnull] at hem; simp at hem
      constructor
      · rw [haU, ha2, haddA x]
        tauto
      · rw [hupdU x, hu2, huA]
        tauto
    · intro hi x em hx
      have hyd : ∃ em', g x = Except.ok (some em') := ⟨em, hx⟩
      have hpp : x ∈ st.processedIds ↔
          (x ∈ st.addedIds ∨ x ∈ st.deletedEmailIds ∨ x ∈ st.updatedIds) := by
        rw [hi.2.mem_iff]
        simp [or_assoc]
      have haddM : x ∈ st'.addedIds ↔
          x ∈ st.addedIds ∨ (x ∈ r.messagesAdded.getD [] ∧ x ∉ st.processedIds) := by
        rw [haU, ha2, haddA x]
        simp [hyd]
      have hdelM : x ∈ st'.deletedEmailIds ↔
          x ∈ st.deletedEmailIds ∨ (x ∈ r.messagesDeleted.getD [] ∧
            ¬(x ∈ st.processedIds ∨ x ∈ r.messagesAdded.getD [])) := by
        rw [hdU, hdel2 x, hprocA x, hdA]
        simp [hyd]
      have hupdM : x ∈ st'.updatedIds ↔
          x ∈ st.updatedIds ∨
            (x ∈ r.labelsAdded.getD [] ++ r.labelsRemoved.getD [] ∧
              ¬((x ∈ st.processedIds ∨ x ∈ r.messagesAdded.getD []) ∨
                x ∈ r.messagesDeleted.getD [])) := by
        rw [hupdU x, hproc2 x, hprocA x, hu2, huA]
        simp [hyd]
      by_cases h1 : x ∈ st.addedIds <;> by_cases h2 : x ∈ st.deletedEmailIds <;>
        by_cases h3 : x ∈ st.updatedIds <;>
        by_cases h4 : x ∈ r.messagesAdded.getD [] <;>
        by_cases h5 : x ∈ r.messagesDeleted.getD [] <;>
        by_cases h6 : x ∈ r.labelsAdded.getD [] ++ r.labelsRemoved.getD [] <;>
        simp [bucketOf, recFirstClass, firstSome, haddM, hdelM, hupdM, hpp,
          h1, h2, h3, h4, h5, h6]

/-- Fold of `processRecord_ok_inv` over a history page. -/
theorem processRecords_ok_inv (g : String → Except String (Option α)) :
    ∀ (records : List HistoryRecord) (st st' : ReconState α),
    processRecords g records st = Except.ok st' →
    (ReconInv st → ReconInv st') ∧
    (∀ x, g x = Except.ok none →
      ((x ∈ st'.addedIds ↔ x ∈ st.addedIds) ∧
       (x ∈ st'.updatedIds ↔ x ∈ st.updatedIds))) ∧
    (ReconInv st → ∀ x em, g x = Except.ok (some em) →
      bucketOf st' x = firstSome (bucketOf st x) (specFirstClassification records x)) := by
  intro records
  induction records with
  | nil =>
    intro st st' h
    simp only [processRecords] at h
    cases h
    refine ⟨fun hi => hi, fun x _ => ⟨Iff.rfl, Iff.rfl⟩, ?_⟩
    intro _ x em _
    simp only [specFirstClassification]
    cases bucketOf st x <;> rfl
  | cons r rest ih =>
    intro st st' h
    simp only [processRecords] at h
    cases hr : processRecord g r st with
    | error e => rw [hr] at h; cases h
    | ok st₁ =>
      rw [hr] at h
      obtain ⟨hinvR, hnullR, hbktR⟩ := processRecord_ok_inv g r st st₁ hr
      obtain ⟨hinvI, hnullI, hbktI⟩ := ih st₁ st' h
      refine ⟨fun hi => hinvI (hinvR hi), ?_, ?_⟩
      · intro x hnull
        obtain ⟨ha1, hu1⟩ := hnullR x hnull
        obtain ⟨ha2, hu2⟩ := hnullI x hnull
        exact ⟨ha2.trans ha1, hu2.trans hu1⟩
      · intro hi x em hx
        rw [hbktI (hinvR hi) x em hx, hbktR hi x em hx,
          specFirstClassification_cons, firstSome_assoc]

/-- With an error-free hydrator the loops always return `ok`. -/
theorem processAdded_noerror (g : String → Except String (Option α))
    (hg : ∀ x e, g x ≠ Except.error e) :
    ∀ (ids : List String) (st : ReconState α),
    ∃ st', processAdded g ids st = Except.ok st' := by
  intro ids
  induction ids with
  | nil => intro st; exact ⟨st, rfl⟩
  | cons id₀ rest ih =>
    intro st
    simp only [processAdded]
    by_cases hc : id₀ ∈ st.processedIds
    · rw [if_pos hc]; exact ih st
    · rw [if_neg hc]
      cases hgi : g id₀ with
      | error e => exact absurd hgi (hg id₀ e)
      | ok oe => cases oe with
        | none => exact ih st
        | some em => exact ih _

theorem processUpdated_noerror (g : String → Except String (Option α))
    (hg : ∀ x e, g x ≠ Except.error e) :
    ∀ (ids : List String) (st : ReconState α),
    ∃ st', processUpdated g ids st = Except.ok st' := by
  intro ids
  induction ids with
  | nil => intro st; exact ⟨st, rfl⟩
  | cons id₀ rest ih =>
    intro st
    simp only [processUpdated]
    by_cases hc : id₀ ∈ st.processedIds
    · rw [if_pos hc]; exact ih st
    · rw [if_neg hc]
      cases hgi : g id₀ with
      | error e => exact absurd hgi (hg id₀ e)
      | ok oe => cases oe with
        | none => exact ih st
        | some em => exact ih _

theorem processRecords_noerror (g : String → Except String (Option α))
    (hg : ∀ x e, g x ≠ Except.error e) :
    ∀ (records : List HistoryRecord) (st : ReconState α),
    ∃ st', processRecords g records st = Except.ok st' := by
  intro records
  induction records with
  | nil => intro st; exact ⟨st, rfl⟩
  | cons r rest ih =>
    intro st
    obtain ⟨st₁, h₁⟩ := processAdded_noerror g hg (r.messagesAdded.getD []) st
    obtain ⟨st₂, h₂⟩ := processUpdated_noerror g hg
      (r.labelsAdded.getD [] ++ r.labelsRemoved.getD [])
      (processDeleted (r.messagesDeleted.getD []) st₁)
    have hrec : processRecord g r st = Except.ok st₂ := by
      rw [processRecord_eq, h₁]
      exact h₂
    obtain ⟨st', h'⟩ := ih st₂
    exact ⟨st', by simp only [processRecords, hrec, h']⟩

/-- Extracting the reconciliation run from a successful `processSync`. -/
theorem processSync_ok_elim (raw : RawHistoryResponse)
    (g : String → Except String (Option α)) (sid : Option String) (r : SyncResult α)
    (h : processSync (Except.ok raw) g sid = Except.ok r) :
    ∃ st, processRecords g raw.history {} = Except.ok st ∧
      r.addedIds = st.addedIds ∧ r.deletedEmailIds = st.deletedEmailIds ∧
      r.updatedIds = st.updatedIds := by
  unfold processSync at h
  by_cases hsid : truthyStr sid = true
  · rw [if_pos hsid] at h
    simp only [getHistory] at h
    cases hrec : processRecords g raw.history ({} : ReconState α) with
    | error e => rw [hrec] at h; simp at h
    | ok st =>
      rw [hrec] at h
      simp only [Except.ok.injEq] at h
      exact ⟨st, rfl, by rw [← h], by rw [← h], by rw [← h]⟩
  · rw [if_neg hsid] at h
    cases h

/-! ### Claim C2 -/

/-- C2 counterexample: with records `[Added(A), Deleted(A)]` and a hydrator
that returns `null` for `A`, `A` lands in `deletedIds` although the FIRST
record in feed order for `A` is the Added record — the bucket is not always
decided by the first record, because an id whose hydration returns `null`
is not marked seen and a later record may still classify it. -/
theorem first_record_does_not_always_decide :
    specFirstClassification
        [{ messagesAdded := some ["A"] }, { messagesDeleted := some ["A"] }] "A"
      = some Bucket.added ∧
    processSync
        (Except.ok { history := [{ messagesAdded := some ["A"] },
                                 { messagesDeleted := some ["A"] }], historyId := "h" })
        (fun _ => Except.ok (none : Option Nat)) (some "1")
      = Except.ok { processedHistoryRecords := 2, addedEmails := [], addedIds := [],
                    deletedEmailIds := ["A"], updatedEmails := [], updatedIds := [],
                    newHistoryId := "h", hasMoreChanges := false,
                    nextPageToken := none } ∧
    resultBucketOf
        ({ processedHistoryRecords := 2, addedEmails := [], addedIds := [],
           deletedEmailIds := ["A"], updatedEmails := [], updatedIds := [],
           newHistoryId := "h", hasMoreChanges := false,
           nextPageToken := none } : SyncResult Nat) "A"
      = some Bucket.deleted ∧
    some Bucket.deleted ≠ some Bucket.added := by
  refine ⟨rfl, rfl, rfl, by decide⟩

/-- C2 (amended): in every `processSync` pass that returns a result, each
entity id occurs in at most one of the output buckets (the concatenation of
the three bucket id sequences has no duplicates at all), and every id that
the hydrator resolves to an entity lands in the bucket decided by the first
record for it in feed order; an id whose hydration returns `null` may
instead be classified by a later record of the same pass. -/
theorem processSync_at_most_one_bucket_first_wins
    (raw : RawHistoryResponse) (g : String → Except String (Option α))
    (sid : Option String) (r : SyncResult α)
    (hok : processSync (Except.ok raw) g sid = Except.ok r) :
    (r.addedIds ++ r.deletedEmailIds ++ r.updatedIds).Nodup ∧
    (∀ x em, g x = Except.ok (some em) →
      resultBucketOf r x = specFirstClassification raw.history x) := by
  obtain ⟨st, hrec, ha, hd, hu⟩ := processSync_ok_elim raw g sid r hok
  obtain ⟨hinv, _, hbkt⟩ := processRecords_ok_inv g raw.history {} st hrec
  have hinv' := hinv reconInv_empty
  constructor
  · rw [ha, hd, hu]
    exact hinv'.2.nodup_iff.mp hinv'.1
  · intro x em hx
    have hb := hbkt reconInv_empty x em hx
    have hb0 : bucketOf ({} : ReconState α) x = none := by simp [bucketOf]
    rw [hb0] at hb
    simp only [firstSome] at hb
    have hr : resultBucketOf r x = bucketOf st x := by
      simp [resultBucketOf, bucketOf, ha, hd, hu]
    rw [hr]
    exact hb

/-- Witness for the amended C2 on the spec's scenario: records
`[Added(A), Updated(A), Deleted(B)]` with a total hydrator reconcile to
`added = [A]`, `updated = []`, `deletedIds = [B]`. -/
theorem processSync_at_most_one_bucket_first_wins_witness :
    processSync
        (Except.ok { history := [{ messagesAdded := some ["A"] },
                                 { labelsAdded := some ["A"] },
                                 { messagesDeleted := some ["B"] }], historyId := "h2" })
        hydrateAll (some "1")
      = Except.ok { processedHistoryRecords := 3, addedEmails := [0], addedIds := ["A"],
                    deletedEmailIds := ["B"], updatedEmails := ([] : List Nat),
                    updatedIds := [], newHistoryId := "h2", hasMoreChanges := false,
                    nextPageToken := none } ∧
    ((["A"] ++ ["B"] ++ ([] : List String)).Nodup ∧
     (∀ x em, hydrateAll x = Except.ok (some em) →
       resultBucketOf
         ({ processedHistoryRecords := 3, addedEmails := [0], addedIds := ["A"],
            deletedEmailIds := ["B"], updatedEmails := ([] : List Nat),
            updatedIds := [], newHistoryId := "h2", hasMoreChanges := false,
            nextPageToken := none } : SyncResult Nat) x
         = specFirstClassification [{ messagesAdded := some ["A"] },
                                    { labelsAdded := some ["A"] },
                                    { messagesDeleted := some ["B"] }] x)) := by
  have hrun : processSync
      (Except.ok { history := [{ messagesAdded := some ["A"] },
                               { labelsAdded := some ["A"] },
                               { messagesDeleted := some ["B"] }], historyId := "h2" })
      hydrateAll (some "1")
    = Except.ok { processedHistoryRecords := 3, addedEmails := [0], addedIds := ["A"],
                  deletedEmailIds := ["B"], updatedEmails := ([] : List Nat),
                  updatedIds := [], newHistoryId := "h2", hasMoreChanges := false,
                  nextPageToken := none } := rfl
  exact ⟨hrun,
    processSync_at_most_one_bucket_first_wins _ hydrateAll (some "1") _ hrun⟩

/-! ### Claim C9 -/

/-- C9: an id is marked seen exactly when its classification fully succeeds
— the processed-id set of a completed pass is precisely (as a multiset) the
concatenation of the three buckets — and in particular `Added(A)` hydrating
to `null` followed by `Deleted(A)` still classifies `A` into `deletedIds`. -/
theorem seen_iff_classified (g : String → Except String (Option α))
    (records : List HistoryRecord) (st : ReconState α)
    (hok : processRecords g records {} = Except.ok st) :
    st.processedIds.Perm (st.addedIds ++ st.deletedEmailIds ++ st.updatedIds) ∧
    processRecords (fun _ => Except.ok (none : Option Nat))
        [{ messagesAdded := some ["A"] }, { messagesDeleted := some ["A"] }] {}
      = Except.ok { deletedEmailIds := ["A"], processedIds := ["A"] } := by
  obtain ⟨hinv, _, _⟩ := processRecords_ok_inv g records {} st hok
  exact ⟨(hinv reconInv_empty).2, rfl⟩

/-- Witness for C9 at the null-then-delete run itself. -/
theorem seen_iff_classified_witness :
    processRecords (fun _ => Except.ok (none : Option Nat))
        [{ messagesAdded := some ["A"] }, { messagesDeleted := some ["A"] }] {}
      = Except.ok { deletedEmailIds := ["A"], processedIds := ["A"] } ∧
    ((({ deletedEmailIds := ["A"], processedIds := ["A"] } :
        ReconState Nat).processedIds).Perm
        (([] : List String) ++ ["A"] ++ []) ∧
     processRecords (fun _ => Except.ok (none : Option Nat))
        [{ messagesAdded := some ["A"] }, { messagesDeleted := some ["A"] }] {}
      = Except.ok { deletedEmailIds := ["A"], processedIds := ["A"] }) :=
  ⟨rfl,
   seen_iff_classified (fun _ => Except.ok (none : Option Nat))
     [{ messagesAdded := some ["A"] }, { messagesDeleted := some ["A"] }]
     { deletedEmailIds := ["A"], processedIds := ["A"] } rfl⟩

/-! ### Claim C5 -/

theorem processAdded_append (g : String → Except String (Option α)) :
    ∀ (l₁ l₂ : List String) (st : ReconState α),
    processAdded g (l₁ ++ l₂) st =
      match processAdded g l₁ st with
      | Except.error e => Except.error e
      | Except.ok st' => processAdded g l₂ st' := by
  intro l₁
  induction l₁ with
  | nil => intro l₂ st; rfl
  | cons id₀ rest ih =>
    intro l₂ st
    simp only [List.cons_append, processAdded]
    by_cases hc : id₀ ∈ st.processedIds
    · simp only [if_pos hc]
      exact ih l₂ st
    · simp only [if_neg hc]
      cases hg : g id₀ with
      | error e => rfl
      | ok oe => cases oe with
        | none => exact ih l₂ st
        | some em => exact ih l₂ _

theorem processUpdated_append (g : String → Except String (Option α)) :
    ∀ (l₁ l₂ : List String) (st : ReconState α),
    processUpdated g (l₁ ++ l₂) st =
      match processUpdated g l₁ st with
      | Except.error e => Except.error e
      | Except.ok st' => processUpdated g l₂ st' := by
  intro l₁
  induction l₁ with
  | nil => intro l₂ st; rfl
  | cons id₀ rest ih =>
    intro l₂ st
    simp only [List.cons_append, processUpdated]
    by_cases hc : id₀ ∈ st.processedIds
    · simp only [if_pos hc]
      exact ih l₂ st
    · simp only [if_neg hc]
      cases hg : g id₀ with
      | error e => rfl
      | ok oe => cases oe with
        | none => exact ih l₂ st
        | some em => exact ih l₂ _

theorem processRecords_append (g : String → Except String (Option α)) :
    ∀ (l₁ l₂ : List HistoryRecord) (st : ReconState α),
    processRecords g (l₁ ++ l₂) st =
      match processRecords g l₁ st with
      | Except.error e => Except.error e
      | Except.ok st' => processRecords g l₂ st' := by
  intro l₁
  induction l₁ with
  | nil => intro l₂ st; rfl
  | cons r rest ih =>
    intro l₂ st
    simp only [List.cons_append, processRecords]
    cases hr : processRecord g r st with
    | error e => rfl
    | ok st' => exact ih l₂ st'

theorem processAdded_error_source (g : String → Except String (Option α)) :
    ∀ (ids : List String) (st : ReconState α) (e : String),
    processAdded g ids st = Except.error e → ∃ x, g x = Except.error e := by
  intro ids
  induction ids with
  | nil => intro st e h; simp only [processAdded] at h; cases h
  | cons id₀ rest ih =>
    intro st e h
    simp only [processAdded] at h
    by_cases hc : id₀ ∈ st.processedIds
    · rw [if_pos hc] at h; exact ih st e h
    · rw [if_neg hc] at h
      cases hg : g id₀ with
      | error e' =>
        rw [hg] at h
        injection h with h
        subst h
        exact ⟨id₀, hg⟩
      | ok oe =>
        rw [hg] at h
        cases oe with
        | none => exact ih st e h
        | some em => exact ih _ e h

theorem processUpdated_error_source (g : String → Except String (Option α)) :
    ∀ (ids : List String) (st : ReconState α) (e : String),
    processUpdated g ids st = Except.error e → ∃ x, g x = Except.error e := by
  intro ids
  induction ids with
  | nil => intro st e h; simp only [processUpdated] at h; cases h
  | cons id₀ rest ih =>
    intro st e h
    simp only [processUpdated] at h
    by_cases hc : id₀ ∈ st.processedIds
    · rw [if_pos hc] at h; exact ih st e h
    · rw [if_neg hc] at h
      cases hg : g id₀ with
      | error e' =>
        rw [hg] at h
        injection h with h
        subst h
        exact ⟨id₀, hg⟩
      | ok oe =>
        rw [hg] at h
        cases oe with
        | none => exact ih st e h
        | some em => exact ih _ e h

theorem processRecord_error_source (g : String → Except String (Option α))
    (r : HistoryRecord) (st : ReconState α) (e : String)
    (h : processRecord g r st = Except.error e) : ∃ x, g x = Except.error e := by
  rw [processRecord_eq] at h
  cases hA : processAdded g (r.messagesAdded.getD []) st with
  | error e' =>
    rw [hA] at h
    injection h with h
    subst h
    exact processAdded_error_source g _ st _ hA
  | ok st₁ =>
    rw [hA] at h
    exact processUpdated_error_source g _ _ e h

theorem processRecords_error_source (g : String → Except String (Option α)) :
    ∀ (records : List HistoryRecord) (st : ReconState α) (e : String),
    processRecords g records st = Except.error e → ∃ x, g x = Except.error e := by
  intro records
  induction records with
  | nil => intro st e h; simp only [processRecords] at h; cases h
  | cons r rest ih =>
    intro st e h
    simp only [processRecords] at h
    cases hr : processRecord g r st with
    | error e' =>
      rw [hr] at h
      injection h with h
      subst h
      exact processRecord_error_source g r st _ hr
    | ok st' =>
      rw [hr] at h
      exact ih st' e h

/-- `processSync` wraps a reconciliation failure in the generic message. -/
theorem processSync_wraps_records_error (raw : RawHistoryResponse)
    (g : String → Except String (Option α)) (sid : String) (e : String)
    (hsid : sid ≠ "")
    (hrec : processRecords g raw.history ({} : ReconState α) = Except.error e) :
    processSync (Except.ok raw) g (some sid) =
      Except.error ("Failed to process sync: " ++ e) := by
  unfold processSync
  rw [if_pos (by simp [truthyStr, hsid])]
  simp only [getHistory, hrec]

/-- C5: hydration's null-vs-error asymmetry.  (1) With an error-free
hydrator a pass always completes and every id resolving to `null` is
silently absent from the added/updated buckets — a `null` raises nothing.
(2) Any failing pass surfaces a hydrator error unmodified: no inline retry,
no remapping.  (3)/(4) A hydrator error on a reached id — at any position
of the id list, in the added path or in the updated (label-change) path,
after any earlier successfully processed records and hydrations — aborts
the pass: `processSync` returns the wrapped hydrator error and no result at
all, so the remaining hydration of the current pass never happens. -/
theorem hydration_null_vs_error (records : List HistoryRecord) :
    (∀ g : String → Except String (Option α), (∀ x e, g x ≠ Except.error e) →
      ∃ st, processRecords g records {} = Except.ok st ∧
        ∀ x, g x = Except.ok none → x ∉ st.addedIds ∧ x ∉ st.updatedIds) ∧
    (∀ (g : String → Except String (Option α)) (st : ReconState α) (e : String),
      processRecords g records st = Except.error e → ∃ x, g x = Except.error e) ∧
    (∀ (g : String → Except String (Option α)) (raw : RawHistoryResponse)
       (sid x : String) (recs₁ recs₂ : List HistoryRecord) (r : HistoryRecord)
       (pre rest : List String) (st st₁ : ReconState α) (e : String),
      sid ≠ "" →
      raw.history = recs₁ ++ r :: recs₂ →
      processRecords g recs₁ {} = Except.ok st →
      r.messagesAdded.getD [] = pre ++ x :: rest →
      processAdded g pre st = Except.ok st₁ →
      x ∉ st₁.processedIds →
      g x = Except.error e →
      processSync (Except.ok raw) g (some sid) =
        Except.error ("Failed to process sync: " ++ e)) ∧
    (∀ (g : String → Except String (Option α)) (raw : RawHistoryResponse)
       (sid x : String) (recs₁ recs₂ : List HistoryRecord) (r : HistoryRecord)
       (pre rest : List String) (st st₁ st₂ : ReconState α) (e : String),
      sid ≠ "" →
      raw.history = recs₁ ++ r :: recs₂ →
      processRecords g recs₁ {} = Except.ok st →
      processAdded g (r.messagesAdded.getD []) st = Except.ok st₁ →
      r.labelsAdded.getD [] ++ r.labelsRemoved.getD [] = pre ++ x :: rest →
      processUpdated g pre (processDeleted (r.messagesDeleted.getD []) st₁)
        = Except.ok st₂ →
      x ∉ st₂.processedIds →
      g x = Except.error e →
      processSync (Except.ok raw) g (some sid) =
        Except.error ("Failed to process sync: " ++ e)) := by
  refine ⟨?_, ?_, ?_, ?_⟩
  · intro g hg
    obtain ⟨st, hst⟩ := processRecords_noerror g hg records {}
    refine ⟨st, hst, ?_⟩
    intro x hnull
    obtain ⟨_, hnullI, _⟩ := processRecords_ok_inv g records {} st hst
    obtain ⟨ha, hu⟩ := hnullI x hnull
    exact ⟨by rw [ha]; simp, by rw [hu]; simp⟩
  · intro g st e h
    exact processRecords_error_source g records st e h
  · intro g raw sid x recs₁ recs₂ r pre rest st st₁ e
      hsid hhist hrecs₁ hma hpre hx hg
    have h1 : processAdded g (pre ++ x :: rest) st = Except.error e := by
      rw [processAdded_append, hpre]
      show processAdded g (x :: rest) st₁ = Except.error e
      simp only [processAdded]
      rw [if_neg hx, hg]
    have hr : processRecord g r st = Except.error e := by
      rw [processRecord_eq, hma, h1]
    apply processSync_wraps_records_error raw g sid e hsid
    rw [hhist, processRecords_append, hrecs₁]
    show processRecords g (r :: recs₂) st = Except.error e
    simp only [processRecords]
    rw [hr]
  · intro g raw sid x recs₁ recs₂ r pre rest st st₁ st₂ e
      hsid hhist hrecs₁ hma hlab hpre hx hg
    have h1 : processUpdated g (pre ++ x :: rest)
        (processDeleted (r.messagesDeleted.getD []) st₁) = Except.error e := by
      rw [processUpdated_append, hpre]
      show processUpdated g (x :: rest) st₂ = Except.error e
      simp only [processUpdated]
      rw [if_neg hx, hg]
    have hr : processRecord g r st = Except.error e := by
      rw [processRecord_eq, hma]
      show processUpdated g (r.labelsAdded.getD [] ++ r.labelsRemoved.getD [])
          (processDeleted (r.messagesDeleted.getD []) st₁) = Except.error e
      rw [hlab]
      exact h1
    apply processSync_wraps_records_error raw g sid e hsid
    rw [hhist, processRecords_append, hrecs₁]
    show processRecords g (r :: recs₂) st = Except.error e
    simp only [processRecords]
    rw [hr]

/-- Witness for C5: a null hydrator leaves `A` out of all buckets without
an error; an erroring hydrator aborts `processSync` with the wrapped
message both on the first added-path hydration and — via `hydrateErrOnE` —
on an updated-path hydration reached after a successful earlier record
(`Added(A)`) and a successful earlier label hydration (`U`) in the same
record. -/
theorem hydration_null_vs_error_witness :
    (∃ st, processRecords hydrateNone
        [{ messagesAdded := some ["A"] }] {} = Except.ok st ∧
      ∀ x, hydrateNone x = Except.ok none →
        x ∉ st.addedIds ∧ x ∉ st.updatedIds) ∧
    hydrateErrOnE "E" = Except.error "boom" ∧
    processSync
        (Except.ok { history := [{ messagesAdded := some ["A"] }], historyId := "h" })
        hydrateFail (some "1")
      = Except.error ("Failed to process sync: " ++ "boom") ∧
    processSync
        (Except.ok { history := [{ messagesAdded := some ["A"] },
                                 { labelsAdded := some ["U", "E"] }],
                     historyId := "h" })
        hydrateErrOnE (some "1")
      = Except.error ("Failed to process sync: " ++ "boom") :=
  ⟨(hydration_null_vs_error [{ messagesAdded := some ["A"] }]).1
     hydrateNone (by intro x e h; simp [hydrateNone] at h),
   rfl,
   (hydration_null_vs_error [{ messagesAdded := some ["A"] }]).2.2.1
     hydrateFail
     { history := [{ messagesAdded := some ["A"] }], historyId := "h" }
     "1" "A" [] [] { messagesAdded := some ["A"] } [] [] {} {} "boom"
     (by decide) rfl rfl rfl rfl (by simp) rfl,
   (hydration_null_vs_error [{ messagesAdded := some ["A"] }]).2.2.2
     hydrateErrOnE
     { history := [{ messagesAdded := some ["A"] },
                   { labelsAdded := some ["U", "E"] }], historyId := "h" }
     "1" "E" [{ messagesAdded := some ["A"] }] []
     { labelsAdded := some ["U", "E"] } ["U"] []
     { addedEmails := [0], addedIds := ["A"], processedIds := ["A"] }
     { addedEmails := [0], addedIds := ["A"], processedIds := ["A"] }
     { addedEmails := [0], addedIds := ["A"], updatedEmails := [0],
       updatedIds := ["U"], processedIds := ["A", "U"] }
     "boom"
     (by decide) rfl rfl rfl rfl rfl (by decide) rfl⟩

/-! ### Claim C3 -/

/-- C3 counterexample: the stale-checkpoint condition (here a 404 from the
history fetch) surfaces to the `processSync` caller as the SAME kind of
error value as any generic fetch failure — a plain `Error` whose message
carries the generic `Failed to process sync: ` wrapper — distinguishable
only by its message text; no distinguished `StaleCheckpointError` type
exists anywhere in the code. -/
theorem stale_checkpoint_is_generic_error :
    processSync
        (Except.error { code := some 404, message := "Requested entity was not found." })
        (fun _ => Except.ok (none : Option Nat)) (some "stale-id")
      = Except.error ("Failed to process sync: History ID stale-id is too old or invalid. Use getCurrentHistoryId() to get a fresh starting point.") ∧
    processSync
        (Except.error { code := some 500, message := "boom" })
        (fun _ => Except.ok (none : Option Nat)) (some "stale-id")
      = Except.error ("Failed to process sync: Failed to get history: boom") :=
  ⟨rfl, rfl⟩

/-- C3 (amended): a checkpoint the provider reports as expired or
unresolvable (a 404, or an error message mentioning `historyId`) surfaces
to the `processSync` caller as a plain error whose message embeds the
distinctive `History ID <id> is too old or invalid` text inside the generic
`Failed to process sync: ` wrapper — it is distinguishable from other fetch
failures only by message content, not by a distinct error type. -/
theorem stale_checkpoint_distinct_message
    (err : ApiError) (g : String → Except String (Option α)) (sid : String)
    (hsid : sid ≠ "")
    (hstale : err.code = some 404 ∨ stringIncludes err.message "historyId" = true) :
    processSync (Except.error err) g (some sid) =
      Except.error ("Failed to process sync: " ++ ("History ID " ++ sid ++
        " is too old or invalid. Use getCurrentHistoryId() to get a fresh starting point.")) := by
  unfold processSync
  rw [if_pos (by simp [truthyStr, hsid])]
  have hcond : (err.code == some 404 || stringIncludes err.message "historyId") = true := by
    cases hstale with
    | inl h => simp [h]
    | inr h => simp [h]
  simp only [getHistory, hcond, if_true]
  rfl

/-- Witness for the amended C3 at a concrete 404. -/
theorem stale_checkpoint_distinct_message_witness :
    ("stale-id" ≠ "") ∧
    (({ code := some 404, message := "nf" } : ApiError).code = some 404 ∨
      stringIncludes ({ code := some 404, message := "nf" } : ApiError).message
        "historyId" = true) ∧
    processSync (Except.error { code := some 404, message := "nf" })
        (fun _ => Except.ok (none : Option Nat)) (some "stale-id")
      = Except.error ("Failed to process sync: " ++ ("History ID " ++ "stale-id" ++
        " is too old or invalid. Use getCurrentHistoryId() to get a fresh starting point.")) :=
  ⟨by decide, Or.inl rfl,
   stale_checkpoint_distinct_message { code := some 404, message := "nf" }
     (fun _ => Except.ok (none : Option Nat)) "stale-id" (by decide) (Or.inl rfl)⟩

end Unimail
